import Mathlib

/-!
# Shallow embedding of `backend/cephapi/api.go`

The Go adapter talks to a Ceph monitor over HTTP.  The control flow of each function of
`api.go` is translated line by line; everything the file imports is a parameter:

* `Env` holds the HTTP handler primitives (as one outcome function), the JSON codec, the
  datastore lookup and the constants of the packages `models` and `monitoring`;
  `Decoders` holds the typed decoders of the read operations, whose record types stay
  abstract.
* The package-level variable `CEPH_API_ROUTES`, filled by `LoadRoutes` outside this file,
  and the list of HTTP calls issued so far form the explicit state `World` threaded through
  every function.
* Go `(value, error)` results are pairs whose second component is an `Option String` (the
  error message, `none` for `nil`), or `Except String _` where the value is only meaningful
  without an error.  Go strings are Lean strings.
* The poll loop of `syncRequestStatus` has no bound in the source; it is modelled with a
  fuel argument and returns `none` when the fuel runs out.  `time.Sleep` only delays the
  loop and is not represented.
* The library functions `strings.Replace`, `strings.Split` and `fmt.Errorf` are modelled for
  the argument shapes the adapter uses.
-/

namespace cephapi

/-! ## Data model -/

/-- Route record `CephApiRoute`: the fields `api.go` reads and writes. -/
structure CephApiRoute where
  Pattern : String
  Method : String
  Version : Int
deriving DecidableEq

/-- Zero value of `CephApiRoute`, what a Go map index yields for a missing key. -/
def CephApiRoute.zero : CephApiRoute := ⟨"", "", 0⟩

/-- Type of the catalog `CEPH_API_ROUTES` (`map[string]CephApiRoute`), as an association list. -/
abbrev RouteTable := List (String × CephApiRoute)

/-- Map index `CEPH_API_ROUTES[name]`: a copy of the stored record, or the zero value. -/
def routeAt (t : RouteTable) (name : String) : CephApiRoute :=
  (t.lookup name).getD CephApiRoute.zero

/-- An `*http.Response` as far as `api.go` looks at it: the status code and the
outcome of `ioutil.ReadAll(resp.Body)`. -/
structure Response where
  StatusCode : Int
  Body : Except String String

/-- One call of a transport primitive of package `handler`, with its arguments. -/
inductive HttpCall where
  | HttpPost (mon url contentType body : String)
  | HttpGet (url : String)
  | HttpPatch (mon url contentType body : String)
  | HttpDelete (mon url contentType body : String)
deriving DecidableEq

/-- Explicit program state: the package-level route catalog and the transport
calls issued so far, oldest first. -/
structure World where
  CEPH_API_ROUTES : RouteTable
  calls : List HttpCall

/-- Value `uuid.UUID`, represented by the text its `String` method renders; the verb `%v`
in error messages is taken to print the same text. -/
structure UUID where
  rendered : String

/-- Method `String` of `uuid.UUID`. -/
def UUID.String (u : UUID) : String := u.rendered

/-- An IEEE-754 double, kept as its bit pattern; only conversions taken from `Env` look inside. -/
structure Float64 where
  bits : Nat

/-- Dynamic Go values (`interface{}`) as produced by `encoding/json` or built by the adapter. -/
inductive GoValue where
  | null
  | bool (b : Bool)
  | float64 (f : Float64)
  | int (i : Int)
  | uint64 (n : Nat)
  | string (s : String)
  | slice (xs : List GoValue)
  | map (kvs : List (String × GoValue))

/-- Struct `models.CephAsyncRequest`: the field `api.go` reads. -/
structure CephAsyncRequest where
  RequestId : String

/-- Struct `models.CephRequestStatus`: the fields `api.go` reads. -/
structure CephRequestStatus where
  State : String
  Error : Bool
  ErrorMessage : String

/-- Struct `models.CephCommandResponse`: the fields `api.go` reads. -/
structure CephCommandResponse where
  Status : Int
  Out : String
  Error : String

/-- Everything `api.go` imports from elsewhere.  `transport n call` is the outcome
of `call` when `n` transport calls were issued before it, so any deterministic
server behaviour, depending on the whole history, is covered. -/
structure Env where
  CEPH_API_PORT : Int
  CEPH_API_DEFAULT_PREFIX : String
  CRITICAL : String
  WARN : String
  OK : String
  STATUS_WARN : String
  STATUS_OK : String
  transport : Nat → HttpCall → Except String Response
  findCluster : String → Except String UUID
  jsonMarshal : GoValue → Except String String
  unmarshalAsyncRequest : String → Except String CephAsyncRequest
  unmarshalRequestStatus : String → Except String CephRequestStatus
  unmarshalCommandResponse : String → Except String CephCommandResponse
  unmarshalDocument : String → Except String (List (String × GoValue))
  float64ToUint64 : Float64 → Nat

/-- Result type `(bool, error)` of the mutating operations. -/
abbrev BoolErr := Bool × Option String

/-! ## Transport and `route_request` -/

/-- Issue one transport call: its outcome is fixed by the environment, and the call is recorded. -/
def issue (env : Env) (call : HttpCall) (w : World) : Except String Response × World :=
  (env.transport w.calls.length call, { w with calls := w.calls ++ [call] })

/-- The text `fmt.Sprintf("http://%s:%d/%s/v%d/%s", mon, port, apiPrefix, version, pattern)`. -/
def apiUrl (env : Env) (mon : String) (route : CephApiRoute) : String :=
  "http://" ++ mon ++ ":" ++ toString env.CEPH_API_PORT ++ "/" ++ env.CEPH_API_DEFAULT_PREFIX
    ++ "/v" ++ toString route.Version ++ "/" ++ route.Pattern

/-- Function `route_request` (api.go 159-185). -/
def route_request (env : Env) (route : CephApiRoute) (mon : String) (body : String) (w : World) :
    Except String Response × World :=
  if route.Method = "POST" then
    issue env (.HttpPost mon (apiUrl env mon route) "application/json" body) w
  else if route.Method = "GET" then
    issue env (.HttpGet (apiUrl env mon route)) w
  else if route.Method = "PATCH" then
    issue env (.HttpPatch mon (apiUrl env mon route) "application/json" body) w
  else if route.Method = "DELETE" then
    issue env (.HttpDelete mon (apiUrl env mon route) "application/json" body) w
  else
    (.error ("Invalid method type: " ++ route.Method), w)

/-! ## Go library functions used by the adapter -/

/-- First-occurrence replacement on character lists: the text before the first
occurrence of `old` is kept, `new` is written, the rest follows unchanged. -/
def replaceFirst (old new : List Char) : List Char → List Char
  | [] => if old = [] then new else []
  | c :: cs =>
    if old.isPrefixOf (c :: cs) then new ++ (c :: cs).drop old.length
    else c :: replaceFirst old new cs

/-- Library call `strings.Replace(s, old, new, 1)`.  Go strings are byte sequences; on
well-formed UTF-8 text searching by characters finds the same occurrences. -/
def stringsReplaceOnce (s old new : String) : String :=
  ⟨replaceFirst old.data new.data s.data⟩

/-- Rendering of an `error` operand under the verb `%v`. -/
def errText : Option String → String
  | none => "<nil>"
  | some m => m

/-- Conversion `int(x)` of a `uint` on a 64-bit platform. -/
def uintToInt (n : Nat) : Int :=
  if n % 2 ^ 64 < 2 ^ 63 then (n % 2 ^ 64 : Nat) else ((n % 2 ^ 64 : Nat) : Int) - 2 ^ 64

/-! ## The async job poller -/

/-- The `for` loop of `syncRequestStatus` (api.go 121-144), one iteration per unit of fuel. -/
def syncLoop (env : Env) (mon : String) (asyncReq : CephAsyncRequest) :
    Nat → World → Option (BoolErr × World)
  | 0, _ => none
  | fuel + 1, w =>
    let route := routeAt w.CEPH_API_ROUTES "GetRequestStatus"
    let route := { route with
      Pattern := stringsReplaceOnce route.Pattern "{request-fsid}" asyncReq.RequestId }
    match route_request env route mon "" w with
    | (.error _, w1) => some ((false, some "Error syncing request status from cluster"), w1)
    | (.ok resp, w1) =>
      match resp.Body with
      | .error err => some ((false, some ("Error parsing response data: " ++ err)), w1)
      | .ok respBodyStr =>
        match env.unmarshalRequestStatus respBodyStr with
        | .error err => some ((false, some ("Error parsing response data: " ++ err)), w1)
        | .ok reqStatus =>
          if reqStatus.State = "complete" then
            if reqStatus.Error then
              some ((false, some ("Request failed. error: " ++ reqStatus.ErrorMessage)), w1)
            else some ((true, none), w1)
          else syncLoop env mon asyncReq fuel w1

/-- Function `syncRequestStatus` (api.go 111-146). -/
def syncRequestStatus (env : Env) (fuel : Nat) (mon : String) (resp : Response) (w : World) :
    Option (BoolErr × World) :=
  match resp.Body with
  | .error err => some ((false, some ("Error parsing response data: " ++ err)), w)
  | .ok respBodyStr =>
    match env.unmarshalAsyncRequest respBodyStr with
    | .error err => some ((false, some ("Error parsing response data: " ++ err)), w)
    | .ok asyncReq => syncLoop env mon asyncReq fuel w

/-- Function `cluster_id` (api.go 148-157): the datastore query is the environment's. -/
def cluster_id (env : Env) (clusterName : String) : Except String String :=
  match env.findCluster clusterName with
  | .error err => .error err
  | .ok cluster => .ok cluster.String

/-! ## Mutating operations -/

/-- The map literal `pool` of `CreatePool` (api.go 70-77). -/
def createPoolBody (name : String) (pgnum : Nat) (replicas quotaMaxObjects : Int)
    (quotaMaxBytes : Nat) : GoValue :=
  .map [
    ("name", .string name),
    ("size", .int replicas),
    ("quota_max_objects", .int quotaMaxObjects),
    ("quota_max_bytes", .uint64 quotaMaxBytes),
    ("pg_num", .int (uintToInt pgnum)),
    ("pgp_num", .int (uintToInt pgnum))]

/-- Method `CreatePool` (api.go 59-91). -/
def CreatePool (env : Env) (fuel : Nat) (name mon clusterName : String) (pgnum : Nat)
    (replicas quotaMaxObjects : Int) (quotaMaxBytes : Nat) (w : World) :
    Option (BoolErr × World) :=
  match cluster_id env clusterName with
  | .error err =>
    some ((false, some ("Could not get id for cluster: " ++ clusterName ++ ". error: " ++ err)), w)
  | .ok cid =>
    let createPoolRoute := routeAt w.CEPH_API_ROUTES "CreatePool"
    let createPoolRoute := { createPoolRoute with
      Pattern := stringsReplaceOnce createPoolRoute.Pattern "{cluster-fsid}" cid }
    let pool := createPoolBody name pgnum replicas quotaMaxObjects quotaMaxBytes
    match env.jsonMarshal pool with
    | .error err => some ((false, some ("Error forming request body. error: " ++ err)), w)
    | .ok buf =>
      match route_request env createPoolRoute mon buf w with
      | (.error err, w1) =>
        some ((false, some ("Failed to create pool: " ++ name ++ " for cluster: " ++ clusterName
          ++ ". error: " ++ err)), w1)
      | (.ok resp, w1) =>
        if resp.StatusCode ≠ 200 ∧ resp.StatusCode ≠ 202 then
          some ((false, some ("Failed to create pool: " ++ name ++ " for cluster: " ++ clusterName
            ++ ". error: " ++ errText none)), w1)
        else syncRequestStatus env fuel mon resp w1

/-- Method `UpdatePool` (api.go 206-224). -/
def UpdatePool (env : Env) (fuel : Nat) (mon : String) (clusterId : UUID) (poolId : Int)
    (pool : GoValue) (w : World) : Option (BoolErr × World) :=
  let updatePoolRoute := routeAt w.CEPH_API_ROUTES "UpdatePool"
  let updatePoolRoute := { updatePoolRoute with
    Pattern := stringsReplaceOnce updatePoolRoute.Pattern "{cluster-fsid}" clusterId.String }
  let updatePoolRoute := { updatePoolRoute with
    Pattern := stringsReplaceOnce updatePoolRoute.Pattern "{pool-id}" (toString poolId) }
  match env.jsonMarshal pool with
  | .error err => some ((false, some ("Error forming request body: " ++ err)), w)
  | .ok buf =>
    match route_request env updatePoolRoute mon buf w with
    | (.error err, w1) =>
      some ((false, some ("Failed to update pool-id: " ++ toString poolId ++ " for cluster: "
        ++ clusterId.String ++ ".error: " ++ err)), w1)
    | (.ok resp, w1) =>
      if resp.StatusCode ≠ 200 ∧ resp.StatusCode ≠ 202 then
        some ((false, some ("Failed to update pool-id: " ++ toString poolId ++ " for cluster: "
          ++ clusterId.String ++ ".error: " ++ errText none)), w1)
      else syncRequestStatus env fuel mon resp w1

/-- Method `RemovePool` (api.go 226-239). -/
def RemovePool (env : Env) (fuel : Nat) (mon : String) (clusterId : UUID) (poolId : Int)
    (w : World) : Option (BoolErr × World) :=
  let removePoolRoute := routeAt w.CEPH_API_ROUTES "RemovePool"
  let removePoolRoute := { removePoolRoute with
    Pattern := stringsReplaceOnce removePoolRoute.Pattern "{cluster-fsid}" clusterId.String }
  let removePoolRoute := { removePoolRoute with
    Pattern := stringsReplaceOnce removePoolRoute.Pattern "{pool-id}" (toString poolId) }
  match route_request env removePoolRoute mon "" w with
  | (.error err, w1) =>
    some ((false, some ("Failed to remove pool-id: " ++ toString poolId ++ " for cluster: "
      ++ clusterId.String ++ ".error: " ++ err)), w1)
  | (.ok resp, w1) =>
    if resp.StatusCode ≠ 200 ∧ resp.StatusCode ≠ 202 then
      some ((false, some ("Failed to remove pool-id: " ++ toString poolId ++ " for cluster: "
        ++ clusterId.String ++ ".error: " ++ errText none)), w1)
    else syncRequestStatus env fuel mon resp w1

/-- Method `UpdateOSD` (api.go 386-404). -/
def UpdateOSD (env : Env) (fuel : Nat) (mon : String) (clusterId : UUID) (osdId : String)
    (params : GoValue) (w : World) : Option (BoolErr × World) :=
  let updateOsdRoute := routeAt w.CEPH_API_ROUTES "UpdateOSD"
  let updateOsdRoute := { updateOsdRoute with
    Pattern := stringsReplaceOnce updateOsdRoute.Pattern "{cluster-fsid}" clusterId.String }
  let updateOsdRoute := { updateOsdRoute with
    Pattern := stringsReplaceOnce updateOsdRoute.Pattern "{osd-id}" osdId }
  match env.jsonMarshal params with
  | .error err => some ((false, some ("Error forming request body: " ++ err)), w)
  | .ok buf =>
    match route_request env updateOsdRoute mon buf w with
    | (.error err, w1) =>
      some ((false, some ("Failed to update osd-id: " ++ osdId ++ " for cluster: "
        ++ clusterId.String ++ ".error: " ++ err)), w1)
    | (.ok resp, w1) =>
      if resp.StatusCode ≠ 200 ∧ resp.StatusCode ≠ 202 then
        some ((false, some ("Failed to update osd-id: " ++ osdId ++ " for cluster: "
          ++ clusterId.String ++ ".error: " ++ errText none)), w1)
      else syncRequestStatus env fuel mon resp w1

/-! ## Read operations -/

/-- The typed JSON decoders of the read operations.  The record types
`backend.CephPool`, `backend.CephOSD` and `backend.PgSummary` are declared outside
`api.go` and stay abstract.  `unmarshalPgSummary` gives the value left in the target
variable together with the error, since `GetPGSummary` returns that variable on failure. -/
structure Decoders (CephPool CephOSD PgSummary : Type) where
  unmarshalPools : String → Except String (List CephPool)
  unmarshalOSDs : String → Except String (List CephOSD)
  unmarshalPgSummary : String → PgSummary × Option String
  zeroOSD : CephOSD
  zeroPgSummary : PgSummary

/-- Method `GetPools` (api.go 187-204). -/
def GetPools {CephPool CephOSD PgSummary : Type} (env : Env)
    (dec : Decoders CephPool CephOSD PgSummary) (mon : String) (clusterId : UUID) (w : World) :
    (List CephPool × Option String) × World :=
  let getPoolsRoute := routeAt w.CEPH_API_ROUTES "GetPools"
  let getPoolsRoute := { getPoolsRoute with
    Pattern := stringsReplaceOnce getPoolsRoute.Pattern "{cluster-fsid}" clusterId.String }
  match route_request env getPoolsRoute mon "" w with
  | (.error err, w1) => (([], some err), w1)
  | (.ok resp, w1) =>
    match resp.Body with
    | .error err => (([], some err), w1)
    | .ok respBody =>
      match dec.unmarshalPools respBody with
      | .error err => (([], some err), w1)
      | .ok pools => ((pools, none), w1)

/-- Method `GetOSDs` (api.go 367-384). -/
def GetOSDs {CephPool CephOSD PgSummary : Type} (env : Env)
    (dec : Decoders CephPool CephOSD PgSummary) (mon : String) (clusterId : UUID) (w : World) :
    (List CephOSD × Option String) × World :=
  let getOsdsRoute := routeAt w.CEPH_API_ROUTES "GetOSDs"
  let getOsdsRoute := { getOsdsRoute with
    Pattern := stringsReplaceOnce getOsdsRoute.Pattern "{cluster-fsid}" clusterId.String }
  match route_request env getOsdsRoute mon "" w with
  | (.error err, w1) => (([], some err), w1)
  | (.ok resp, w1) =>
    match resp.Body with
    | .error err => (([], some err), w1)
    | .ok respBody =>
      match dec.unmarshalOSDs respBody with
      | .error err => (([], some err), w1)
      | .ok osds => ((osds, none), w1)

/-- Method `GetOSD` (api.go 406-428). -/
def GetOSD {CephPool CephOSD PgSummary : Type} (env : Env)
    (dec : Decoders CephPool CephOSD PgSummary) (mon : String) (clusterId : UUID)
    (osdId : String) (w : World) : (CephOSD × Option String) × World :=
  let getOsdRoute := routeAt w.CEPH_API_ROUTES "GetOSD"
  let getOsdRoute := { getOsdRoute with
    Pattern := stringsReplaceOnce getOsdRoute.Pattern "{cluster-fsid}" clusterId.String }
  let getOsdRoute := { getOsdRoute with
    Pattern := stringsReplaceOnce getOsdRoute.Pattern "{osd-id}" osdId }
  match route_request env getOsdRoute mon "" w with
  | (.error err, w1) => ((dec.zeroOSD, some err), w1)
  | (.ok resp, w1) =>
    match resp.Body with
    | .error err => ((dec.zeroOSD, some err), w1)
    | .ok respBody =>
      match dec.unmarshalOSDs respBody with
      | .error err => ((dec.zeroOSD, some err), w1)
      | .ok osds =>
        match osds with
        | osd :: _ => ((osd, none), w1)
        | [] => ((dec.zeroOSD, some "Couldn\x27t retrieve the specified OSD"), w1)

/-- Method `GetPGSummary` (api.go 317-335). -/
def GetPGSummary {CephPool CephOSD PgSummary : Type} (env : Env)
    (dec : Decoders CephPool CephOSD PgSummary) (mon : String) (clusterId : UUID) (w : World) :
    (PgSummary × Option String) × World :=
  let pgStatsRoute := routeAt w.CEPH_API_ROUTES "PGStatistics"
  let pgStatsRoute := { pgStatsRoute with
    Pattern := stringsReplaceOnce pgStatsRoute.Pattern "{cluster-fsid}" clusterId.String }
  match route_request env pgStatsRoute mon "" w with
  | (.error err, w1) => ((dec.zeroPgSummary, some err), w1)
  | (.ok resp, w1) =>
    match resp.Body with
    | .error err => ((dec.zeroPgSummary, some err), w1)
    | .ok respBody =>
      match dec.unmarshalPgSummary respBody with
      | (pgsummary, some err) => ((pgsummary, some err), w1)
      | (pgsummary, none) => ((pgsummary, none), w1)

/-! ## The placement-group aggregator -/

/-- Index expression `m[k]` on a `map[string]interface{}`: the nil interface for a missing key. -/
def mapIndex (m : List (String × GoValue)) (k : String) : GoValue :=
  (m.lookup k).getD .null

/-- Type assertion `v.(map[string]interface{})` in its comma-ok form. -/
def asMap : GoValue → Option (List (String × GoValue))
  | .map kvs => some kvs
  | _ => none

/-- Type assertion `v.(float64)` in its comma-ok form. -/
def asFloat64 : GoValue → Option Float64
  | .float64 f => some f
  | _ => none

/-- Assignment `m[k] = v` on a `map[string]uint64`. -/
def mapSet (m : List (String × Nat)) (k : String) (v : Nat) : List (String × Nat) :=
  (k, v) :: m.filter (fun kv => kv.1 ≠ k)

/-- Function `GetPgStatusBasedCount` (api.go 249-259). -/
def GetPgStatusBasedCount (env : Env) (status : String) (clusterId : UUID)
    (pgMap : List (String × GoValue)) : Nat × Option String :=
  match asMap (mapIndex pgMap status) with
  | none =>
    (0, some ("Failed to fetch number of pgs in error for the cluster " ++ clusterId.String))
  | some pgCount =>
    match asFloat64 (mapIndex pgCount "count") with
    | none =>
      (0, some ("Failed to fetch number of pgs in error for the cluster " ++ clusterId.String))
    | some ipgCount => (env.float64ToUint64 ipgCount, none)

/-- Method `GetPGCount` (api.go 261-315); the result map is `none` where Go returns `nil`. -/
def GetPGCount (env : Env) (mon : String) (clusterId : UUID) (ctxt : String) (w : World) :
    (Option (List (String × Nat)) × Option String) × World :=
  let pgStatsRoute := routeAt w.CEPH_API_ROUTES "GetPGCount"
  let pgStatsRoute := { pgStatsRoute with
    Pattern := stringsReplaceOnce pgStatsRoute.Pattern "{cluster-fsid}" clusterId.String }
  match route_request env pgStatsRoute mon "" w with
  | (.error err, w1) => ((none, some err), w1)
  | (.ok resp, w1) =>
    match resp.Body with
    | .error err => ((none, some err), w1)
    | .ok respBody =>
      match env.unmarshalDocument respBody with
      | .error err => ((none, some err), w1)
      | .ok pgSummary =>
        match asMap (mapIndex pgSummary "pg") with
        | none =>
          ((none, some (ctxt ++ " - Failed to fetch number of pgs for the cluster "
            ++ clusterId.String)), w1)
        | some pgMap =>
          let pgCount : List (String × Nat) := []
          let critical := GetPgStatusBasedCount env env.CRITICAL clusterId pgMap
          let pgCount := mapSet pgCount env.CRITICAL critical.1
          match critical.2 with
          | some errPgCountError => ((none, some (ctxt ++ " - Err: " ++ errPgCountError)), w1)
          | none =>
            let warn := GetPgStatusBasedCount env env.WARN clusterId pgMap
            let pgCount := mapSet pgCount env.STATUS_WARN warn.1
            match warn.2 with
            | some warnPgCountError => ((none, some (ctxt ++ " - Err: " ++ warnPgCountError)), w1)
            | none =>
              let ok := GetPgStatusBasedCount env env.OK clusterId pgMap
              let pgCount := mapSet pgCount env.STATUS_OK ok.1
              match ok.2 with
              | some okPgCountError => ((none, some (ctxt ++ " - Err: " ++ okPgCountError)), w1)
              | none => ((some pgCount, none), w1)

/-! ## The command executor -/

/-- Splitting of a character list at every occurrence of the one-character separator:
`k` separators give `k + 1` pieces, empty ones included. -/
def splitAtChar (sep : Char) : List Char → List (List Char)
  | [] => [[]]
  | c :: cs =>
    if c = sep then [] :: splitAtChar sep cs
    else
      match splitAtChar sep cs with
      | [] => [[c]]
      | t :: ts => (c :: t) :: ts

/-- Library call `strings.Split(s, " ")`. -/
def stringsSplitSpace (s : String) : List String :=
  (splitAtChar ' ' s.data).map String.mk

/-- Flag characters recognised after `%` by the formatter of package `fmt`. -/
def isFlag (c : Char) : Bool :=
  c = '#' || c = '0' || c = '+' || c = '-' || c = ' '

/-- Helper `parsenum` of package `fmt`: skips decimal digits and tells whether there was
one; `none` when the number read so far exceeds the limit of 10^6. -/
def parsenum : Nat → Bool → List Char → Option (Bool × List Char)
  | _, isnum, [] => some (isnum, [])
  | num, isnum, c :: cs =>
    if c.isDigit then
      if num > 1000000 then none else parsenum (num * 10 + (c.toNat - 48)) true cs
    else some (isnum, c :: cs)

/-- Width or precision digits in a format: on overflow `parsenum` jumps to the end of the format. -/
def parsenumFormat (s : List Char) : Bool × List Char :=
  (parsenum 0 false s).getD (false, [])

/-- Helper `parseArgNumber` of package `fmt` on a text starting with `[`:
the number of characters to skip and whether a well-formed `[n]` was read. -/
def parseArgNumber (s : List Char) : Nat × Bool :=
  if s.length < 3 then (1, false)
  else
    let inner := (s.drop 1).takeWhile (fun c => c ≠ ']')
    if inner.length + 1 < s.length then
      match parsenum 0 false inner with
      | some (true, []) => (inner.length + 2, true)
      | _ => (inner.length + 2, false)
    else (1, false)

/-- Helper `argNumber` of package `fmt` when there are no operands: the remaining
format, whether an index was found, and whether the argument number is still good. -/
def argNumber (s : List Char) : List Char × Bool × Bool :=
  match s with
  | '[' :: _ =>
    let r := parseArgNumber s
    (s.drop r.1, r.2, false)
  | _ => (s, false, true)

/-- Formatting loop `doPrintf` of package `fmt` when the operand list is empty: flags, width,
precision and argument indexes are parsed as usual, and every directive renders as an error
marker, except `%%`.  A `.` opens a precision only when a character follows it (the guard
`i+1 < end`); a `.` that ends the format is taken as the verb.  The first argument bounds
the number of iterations; the length of the format plus one is enough. -/
def doPrintf : Nat → List Char → List Char
  | 0, _ => []
  | _ + 1, [] => []
  | fuel + 1, c :: cs =>
    if c ≠ '%' then c :: doPrintf fuel cs
    else
      let s1 := cs.dropWhile isFlag
      let a1 := argNumber s1
      let afterIndex := a1.2.1
      let good := a1.2.2
      -- width
      let wd : List Char × List Char × Bool × Bool :=
        match a1.1 with
        | '*' :: rest => ("%!(BADWIDTH)".data, rest, false, good)
        | s2 =>
          let n := parsenumFormat s2
          ([], n.2, afterIndex, good && !(afterIndex && n.1))
      let out1 := wd.1
      let s3 := wd.2.1
      let afterIndex := wd.2.2.1
      let good := wd.2.2.2
      -- precision
      let pr : List Char × List Char × Bool × Bool :=
        match s3 with
        | '.' :: c4 :: rest4 =>
          let s4 := c4 :: rest4
          let good := good && !afterIndex
          let a2 := argNumber s4
          let good := good && a2.2.2
          match a2.1 with
          | '*' :: rest => ("%!(BADPREC)".data, rest, false, good)
          | s5 => ([], (parsenumFormat s5).2, a2.2.1, good)
        | _ => ([], s3, afterIndex, good)
      let out2 := pr.1
      let s6 := pr.2.1
      let afterIndex := pr.2.2.1
      let good := pr.2.2.2
      let a3 : List Char × Bool × Bool := if afterIndex then (s6, true, true) else argNumber s6
      let good := good && a3.2.2
      match a3.1 with
      | [] => out1 ++ out2 ++ "%!(NOVERB)".data
      | verb :: rest =>
        let piece :=
          if verb = '%' then ['%']
          else if !good then "%!".data ++ [verb] ++ "(BADINDEX)".data
          else "%!".data ++ [verb] ++ "(MISSING)".data
        out1 ++ out2 ++ piece ++ doPrintf fuel rest

/-- Message of the error `fmt.Errorf(format)` built with no operands: the format is
interpreted, so it comes back unchanged only when it holds no `%`. -/
def fmtErrorf (format : String) : String :=
  ⟨doPrintf (format.length + 1) format.data⟩

/-- Method `ExecCmd` (api.go 337-365). -/
def ExecCmd (env : Env) (mon : String) (clusterId : UUID) (cmd : String) (w : World) :
    (Bool × String × Option String) × World :=
  let execCmdRoute := routeAt w.CEPH_API_ROUTES "ExecCmd"
  let execCmdRoute := { execCmdRoute with
    Pattern := stringsReplaceOnce execCmdRoute.Pattern "{cluster-fsid}" clusterId.String }
  let command := GoValue.map [("command", .slice ((stringsSplitSpace cmd).map .string))]
  match env.jsonMarshal command with
  | .error err => ((false, "", some ("Error forming request body. error: " ++ err)), w)
  | .ok buf =>
    match route_request env execCmdRoute mon buf w with
    | (.error err, w1) =>
      ((false, "", some ("Failed to execute command: " ++ cmd ++ ". error: " ++ err)), w1)
    | (.ok resp, w1) =>
      if resp.StatusCode ≠ 200 then
        ((false, "", some ("Failed to execute command: " ++ cmd ++ ". error: " ++ errText none)),
          w1)
      else
        match resp.Body with
        | .error err => ((false, "", some err), w1)
        | .ok respBody =>
          match env.unmarshalCommandResponse respBody with
          | .error err => ((false, "", some err), w1)
          | .ok cmdExecResp =>
            if cmdExecResp.Status ≠ 0 then ((false, "", some (fmtErrorf cmdExecResp.Error)), w1)
            else ((true, cmdExecResp.Out, none), w1)

/-! ## Vocabulary of the specification -/

/-- One status query of the poll loop (api.go 123-125) issued in world `w`. -/
def statusQuery (env : Env) (mon : String) (asyncReq : CephAsyncRequest) (w : World) :
    Except String Response × World :=
  let route := routeAt w.CEPH_API_ROUTES "GetRequestStatus"
  route_request env
    { route with
      Pattern := stringsReplaceOnce route.Pattern "{request-fsid}" asyncReq.RequestId }
    mon "" w

/-- The world after `k` status queries. -/
def afterPolls (env : Env) (mon : String) (asyncReq : CephAsyncRequest) : Nat → World → World
  | 0, w => w
  | k + 1, w => afterPolls env mon asyncReq k (statusQuery env mon asyncReq w).2

/-- Outcome of status query number `k` (counted from 0) of a poll that starts in world `w`. -/
def statusReply (env : Env) (mon : String) (asyncReq : CephAsyncRequest) (w : World) (k : Nat) :
    Except String Response :=
  (statusQuery env mon asyncReq (afterPolls env mon asyncReq k w)).1

/-- The job status a reply carries, when the query succeeded and its body was read and parsed. -/
def decodedStatus (env : Env) (reply : Except String Response) : Option CephRequestStatus :=
  match reply with
  | .error _ => none
  | .ok resp =>
    match resp.Body with
    | .error _ => none
    | .ok body =>
      match env.unmarshalRequestStatus body with
      | .error _ => none
      | .ok st => some st

/-- A reply saying `state == "complete"` with `error == false`. -/
def completeOk (env : Env) (reply : Except String Response) : Prop :=
  ∃ st, decodedStatus env reply = some st ∧ st.State = "complete" ∧ st.Error = false

/-- A parsed reply whose state is not `"complete"`. -/
def pending (env : Env) (reply : Except String Response) : Prop :=
  ∃ st, decodedStatus env reply = some st ∧ st.State ≠ "complete"

/-- What the specification asks of a mutating operation, given the outcome `out` of its
initial request: on a transport error or a status other than 200 and 202 the result is
`(false, error)` in the world right after that request, otherwise it is the poller's. -/
def gatedByInitialRequest (env : Env) (fuel : Nat) (mon : String)
    (out : Except String Response × World) (result : Option (BoolErr × World)) : Prop :=
  match out with
  | (.error _, w1) => ∃ msg, result = some ((false, some msg), w1)
  | (.ok resp, w1) =>
    if resp.StatusCode = 200 ∨ resp.StatusCode = 202 then
      result = syncRequestStatus env fuel mon resp w1
    else ∃ msg, result = some ((false, some msg), w1)

/-- The binding step of the adapter: one `strings.Replace(pattern, "{name}", value, 1)`
per entry of the substitution, in order. -/
def bindPattern (pattern : String) (subst : List (String × String)) : String :=
  subst.foldl (fun p kv => stringsReplaceOnce p ("\x7b" ++ kv.1 ++ "\x7d") kv.2) pattern

/-- Whether a text holds a brace-delimited part: an opening brace with a closing one after it. -/
def hasBraceGroup : List Char → Bool
  | [] => false
  | c :: cs => (c = '{' && cs.contains '}') || hasBraceGroup cs

/-- Scanner behind `placeholderNames`: `cur` holds the characters read since the last
unmatched opening brace, newest first. -/
def scanPlaceholders : Option (List Char) → List Char → List String
  | _, [] => []
  | none, c :: cs => if c = '{' then scanPlaceholders (some []) cs else scanPlaceholders none cs
  | some acc, c :: cs =>
    if c = '}' then String.mk acc.reverse :: scanPlaceholders none cs
    else if c = '{' then scanPlaceholders (some []) cs
    else scanPlaceholders (some (c :: acc)) cs

/-- The placeholder names occurring in a pattern, in order of occurrence. -/
def placeholderNames (pattern : String) : List String :=
  scanPlaceholders none pattern.data

/-- A substitution covers a pattern when it supplies a value for every placeholder in it. -/
def covers (subst : List (String × String)) (pattern : String) : Prop :=
  ∀ n ∈ placeholderNames pattern, n ∈ subst.map Prod.fst

/-- A piece of a route template: literal text or a placeholder. -/
inductive Segment where
  | text (s : String)
  | placeholder (name : String)

/-- The pattern a template stands for. -/
def renderTemplate : List Segment → String
  | [] => ""
  | .text s :: rest => s ++ renderTemplate rest
  | .placeholder n :: rest => "\x7b" ++ n ++ "\x7d" ++ renderTemplate rest

/-- The placeholder names of a template. -/
def templateNames : List Segment → List String
  | [] => []
  | .text _ :: rest => templateNames rest
  | .placeholder n :: rest => n :: templateNames rest

/-- A text without any brace. -/
def braceFree (s : String) : Prop := '{' ∉ s.data ∧ '}' ∉ s.data

/-- A template whose literal texts and placeholder names hold no brace. -/
def wellFormedTemplate : List Segment → Prop
  | [] => True
  | .text s :: rest => braceFree s ∧ wellFormedTemplate rest
  | .placeholder n :: rest => braceFree n ∧ wellFormedTemplate rest

/-- The template after binding `name`: its first placeholder of that name becomes the
literal text `value`. -/
def substituteFirst (name value : String) : List Segment → List Segment
  | [] => []
  | .text s :: rest => .text s :: substituteFirst name value rest
  | .placeholder n :: rest =>
    if n = name then .text value :: rest
    else .placeholder n :: substituteFirst name value rest

/-- ASCII whitespace: space, tab, line feed, vertical tab, form feed, carriage return. -/
def isAsciiSpace (c : Char) : Bool :=
  c = ' ' || c = '\t' || c = '\n' || c = '\x0b' || c = '\x0c' || c = '\r'

/-- The split the specification describes: the maximal runs of non-whitespace
characters, in order, none of them empty. -/
def whitespaceRuns : List Char → List (List Char)
  | [] => []
  | c :: cs =>
    if isAsciiSpace c then whitespaceRuns cs
    else
      match cs with
      | [] => [[c]]
      | d :: _ =>
        if isAsciiSpace d then [c] :: whitespaceRuns cs
        else
          match whitespaceRuns cs with
          | t :: ts => (c :: t) :: ts
          | [] => [[c]]

/-- The token list the specification expects for a command string. -/
def whitespaceTokens (cmd : String) : List String :=
  (whitespaceRuns cmd.data).map String.mk

/-- Concatenation of pieces with one separator character between neighbours. -/
def joinChars (sep : Char) : List (List Char) → List Char
  | [] => []
  | [t] => t
  | t :: ts => t ++ sep :: joinChars sep ts

/-- Library call `strings.Join(tokens, " ")`. -/
def stringsJoinSpace (tokens : List String) : String :=
  ⟨joinChars ' ' (tokens.map String.data)⟩

/-- The request body `ExecCmd` marshals for a token list. -/
def commandBody (tokens : List String) : GoValue :=
  .map [("command", .slice (tokens.map .string))]

/-- A well-formed PG-count document for the aggregator: `pg` is an object and each of
the three severities is an object with a numeric `count`. -/
def pgDocumentComplete (env : Env) (doc : List (String × GoValue)) : Prop :=
  ∃ pgMap, asMap (mapIndex doc "pg") = some pgMap ∧
    ∀ sev ∈ [env.CRITICAL, env.WARN, env.OK],
      ∃ entry, asMap (mapIndex pgMap sev) = some entry ∧
        ∃ count, asFloat64 (mapIndex entry "count") = some count

/-- The route an operation sends after binding: a copy of the catalog entry `name`
whose pattern went through `bindPattern`. -/
def boundRoute (w : World) (name : String) (subst : List (String × String)) : CephApiRoute :=
  let route := routeAt w.CEPH_API_ROUTES name
  { route with Pattern := bindPattern route.Pattern subst }

/-! ## Scenario fixtures -/

/-- Modelled from the spec: the route catalog listed in its section 6 (`LoadRoutes`, which
fills `CEPH_API_ROUTES`, is outside `api.go`); the version number is a stand-in. -/
def specRoutes : RouteTable := [
  ("CreatePool", ⟨"cluster/{cluster-fsid}/pool", "POST", 2⟩),
  ("GetPools", ⟨"cluster/{cluster-fsid}/pool", "GET", 2⟩),
  ("UpdatePool", ⟨"cluster/{cluster-fsid}/pool/{pool-id}", "PATCH", 2⟩),
  ("RemovePool", ⟨"cluster/{cluster-fsid}/pool/{pool-id}", "DELETE", 2⟩),
  ("GetOSDs", ⟨"cluster/{cluster-fsid}/osd", "GET", 2⟩),
  ("GetOSD", ⟨"cluster/{cluster-fsid}/osd/{osd-id}", "GET", 2⟩),
  ("UpdateOSD", ⟨"cluster/{cluster-fsid}/osd/{osd-id}", "PATCH", 2⟩),
  ("ExecCmd", ⟨"cluster/{cluster-fsid}/cli", "POST", 2⟩),
  ("GetPGCount", ⟨"cluster/{cluster-fsid}/sync_object/pg_summary", "GET", 2⟩),
  ("PGStatistics", ⟨"cluster/{cluster-fsid}/sync_object/pg_summary", "GET", 2⟩),
  ("GetRequestStatus", ⟨"request/{request-fsid}", "GET", 2⟩)]

/-- The document `{"pg":{"critical":{"count":2},"warn":{"count":1}}}` of scenario 3, decoded. -/
def pgDocMissingOk : List (String × GoValue) :=
  [("pg", .map [
    ("critical", .map [("count", .float64 ⟨0x4000000000000000⟩)]),
    ("warn", .map [("count", .float64 ⟨0x3FF0000000000000⟩)])])]

/-- Modelled from the spec: an environment for the scenarios of its section 8.  Constants
follow the specification (severity keys `critical`, `warn`, `ok`); port, prefix and the
result keys are stand-ins; the codec is a table over the literal bodies of the scenarios. -/
def scenarioEnv (transport : Nat → HttpCall → Except String Response) : Env where
  CEPH_API_PORT := 8002
  CEPH_API_DEFAULT_PREFIX := "api"
  CRITICAL := "critical"
  WARN := "warn"
  OK := "ok"
  STATUS_WARN := "warning"
  STATUS_OK := "ok"
  transport := transport
  findCluster := fun name =>
    if name = "c1" then .ok ⟨"00000000-0000-0000-0000-0000000000aa"⟩
    else .error "not found"
  jsonMarshal := fun _ => .ok "body"
  unmarshalAsyncRequest := fun body =>
    if body = "\x7b\"request_id\":\"r-1\"\x7d" then .ok ⟨"r-1"⟩ else .error "invalid character"
  unmarshalRequestStatus := fun body =>
    if body = "\x7b\"state\":\"submitted\",\"error\":false\x7d" then .ok ⟨"submitted", false, ""⟩
    else if body = "\x7b\"state\":\"complete\",\"error\":false\x7d" then
      .ok ⟨"complete", false, ""⟩
    else if body = "\x7b\"state\":\"complete\",\"error\":true,\"error_message\":\"pool in use\"\x7d"
    then .ok ⟨"complete", true, "pool in use"⟩
    else .error "invalid character"
  unmarshalCommandResponse := fun body =>
    if body = "\x7b\"status\":22,\"out\":\"\",\"error\":\"invalid argument\"\x7d" then
      .ok ⟨22, "", "invalid argument"⟩
    else if body = "\x7b\"status\":22,\"out\":\"\",\"error\":\"quota 100%\"\x7d" then
      .ok ⟨22, "", "quota 100%"⟩
    else if body = "\x7b\"status\":0,\"out\":\"rbd\",\"error\":\"\"\x7d" then .ok ⟨0, "rbd", ""⟩
    else .error "invalid character"
  unmarshalDocument := fun body =>
    if body = "\x7b\"pg\":\x7b\"critical\":\x7b\"count\":2\x7d,\"warn\":\x7b\"count\":1\x7d\x7d\x7d"
    then .ok pgDocMissingOk
    else .error "invalid character"
  float64ToUint64 := fun f =>
    if f.bits = 0x4000000000000000 then 2 else if f.bits = 0x3FF0000000000000 then 1 else 0

/-- Body of a 202 answer carrying the job handle `r-1`. -/
def handleBody : String := "\x7b\"request_id\":\"r-1\"\x7d"

/-- Status body of a job still queued. -/
def submittedBody : String := "\x7b\"state\":\"submitted\",\"error\":false\x7d"

/-- Status body of a job completed without error. -/
def completeBody : String := "\x7b\"state\":\"complete\",\"error\":false\x7d"

/-- Server of scenario 1: the first call is accepted with a job handle, the first status
query finds the job submitted, every later one finds it complete. -/
def happyTransport : Nat → HttpCall → Except String Response
  | 0, _ => .ok ⟨202, .ok handleBody⟩
  | 1, _ => .ok ⟨200, .ok submittedBody⟩
  | _, _ => .ok ⟨200, .ok completeBody⟩

/-- A server that accepts the first call and answers one status query, after which the
connection is refused. -/
def droppingTransport : Nat → HttpCall → Except String Response
  | 0, _ => .ok ⟨202, .ok handleBody⟩
  | 1, _ => .ok ⟨200, .ok submittedBody⟩
  | _, _ => .error "connection refused"

/-- The network of scenario 6: every connection is refused. -/
def refusingTransport : Nat → HttpCall → Except String Response :=
  fun _ _ => .error "connection refused"

/-- Body of scenario 3: a PG summary without the severity `ok`. -/
def pgBodyMissingOk : String :=
  "\x7b\"pg\":\x7b\"critical\":\x7b\"count\":2\x7d,\"warn\":\x7b\"count\":1\x7d\x7d\x7d"

/-- Server of scenario 3: every request is answered 200 with the incomplete PG summary. -/
def pgTransport : Nat → HttpCall → Except String Response :=
  fun _ _ => .ok ⟨200, .ok pgBodyMissingOk⟩

/-- Stand-in for the record types `backend.CephPool`, `backend.CephOSD` and
`backend.PgSummary`, which are declared outside `api.go`: a record of which only the field
`name` is kept. -/
structure NamedRecord where
  name : String
deriving DecidableEq

/-- Body of a pool list holding the one pool `rbd`: `[{"name":"rbd"}]`. -/
def poolListBody : String := "[\x7b\"name\":\"rbd\"\x7d]"

/-- Server of scenario 4: every request is answered 200 with the empty list `[]`. -/
def emptyListTransport : Nat → HttpCall → Except String Response :=
  fun _ _ => .ok ⟨200, .ok "[]"⟩

/-- Stand-in decoders, a table over the bodies of the scenarios: as a pool list, the JSON
list with the one object `{"name":"rbd"}` decodes to the one record of that name; the empty
list decodes to no record; the empty object decodes to the zero summary.  Bodies outside the
table are rejected. -/
def recordDecoders : Decoders NamedRecord NamedRecord NamedRecord where
  unmarshalPools := fun body =>
    if body = poolListBody then .ok [⟨"rbd"⟩]
    else if body = "[]" then .ok []
    else .error "invalid"
  unmarshalOSDs := fun body => if body = "[]" then .ok [] else .error "invalid"
  unmarshalPgSummary := fun body =>
    if body = "\x7b\x7d" then (⟨""⟩, none) else (⟨""⟩, some "invalid")
  zeroOSD := ⟨""⟩
  zeroPgSummary := ⟨""⟩

/-- Server of scenario 5: the command endpoint answers 200 with `status` 22 and the error
text `invalid argument`. -/
def commandTransport : Nat → HttpCall → Except String Response :=
  fun _ _ => .ok ⟨200, .ok "\x7b\"status\":22,\"out\":\"\",\"error\":\"invalid argument\"\x7d"⟩

/-- A command endpoint answering 200 with `status` 22 and the error text `quota 100%`. -/
def percentTransport : Nat → HttpCall → Except String Response :=
  fun _ _ => .ok ⟨200, .ok "\x7b\"status\":22,\"out\":\"\",\"error\":\"quota 100%\"\x7d"⟩

/-- Rendering of one token for `commandJson`. -/
def quoteToken : GoValue → String
  | .string s => "\"" ++ s ++ "\""
  | _ => "null"

/-- Stand-in for `json.Marshal` on the body of `ExecCmd`, a map with one key holding a list
of strings (escaping is not needed for the tokens of the scenarios). -/
def commandJson : GoValue → Except String String
  | .map [(key, .slice tokens)] =>
    .ok ("\x7b\"" ++ key ++ "\":[" ++ String.intercalate "," (tokens.map quoteToken) ++ "]\x7d")
  | _ => .ok "body"

/-- The environment of scenario 5, with the request body rendered by `commandJson`. -/
def commandEnv : Env :=
  { scenarioEnv commandTransport with jsonMarshal := commandJson }

/-- The cluster id of scenario 1. -/
def scenarioClusterId : UUID := ⟨"00000000-0000-0000-0000-0000000000aa"⟩

/-- The initial world of the scenarios: the catalog of the specification, no call issued. -/
def scenarioWorld : World := ⟨specRoutes, []⟩

/-- The world of the scenarios once the mutating request went out. -/
def worldAfterRequest : World :=
  ⟨specRoutes, [.HttpPost "mon-1"
    "http://mon-1:8002/api/v2/cluster/00000000-0000-0000-0000-0000000000aa/pool"
    "application/json" "body"]⟩

end cephapi

/-! # Theorems -/

namespace cephapi

/-! ## The poll loop, one iteration at a time -/

theorem syncLoop_step_error (env : Env) (mon : String) (asyncReq : CephAsyncRequest)
    (fuel : Nat) (w : World) (e : String)
    (h : (statusQuery env mon asyncReq w).1 = .error e) :
    syncLoop env mon asyncReq (fuel + 1) w =
      some ((false, some "Error syncing request status from cluster"),
        (statusQuery env mon asyncReq w).2) := by
  simp only [syncLoop, statusQuery] at h ⊢
  rcases hq : route_request env _ mon "" w with ⟨r, w1⟩
  rw [hq] at h
  cases r with
  | error e => rfl
  | ok resp => cases h

theorem syncLoop_step_pending (env : Env) (mon : String) (asyncReq : CephAsyncRequest)
    (fuel : Nat) (w : World) (h : pending env (statusQuery env mon asyncReq w).1) :
    syncLoop env mon asyncReq (fuel + 1) w =
      syncLoop env mon asyncReq fuel (statusQuery env mon asyncReq w).2 := by
  obtain ⟨st, hst, hne⟩ := h
  simp only [syncLoop, statusQuery, decodedStatus] at hst ⊢
  rcases hq : route_request env _ mon "" w with ⟨r, w1⟩
  rw [hq] at hst
  cases r with
  | error e => cases hst
  | ok resp =>
    simp only at hst ⊢
    cases hb : resp.Body with
    | error e => rw [hb] at hst; cases hst
    | ok b =>
      rw [hb] at hst
      simp only at hst ⊢
      cases hu : env.unmarshalRequestStatus b with
      | error e => rw [hu] at hst; cases hst
      | ok st2 =>
        rw [hu] at hst
        simp only [Option.some.injEq] at hst
        subst hst
        simp [hne]

theorem syncLoop_step_complete (env : Env) (mon : String) (asyncReq : CephAsyncRequest)
    (fuel : Nat) (w : World) (h : completeOk env (statusQuery env mon asyncReq w).1) :
    syncLoop env mon asyncReq (fuel + 1) w =
      some ((true, none), (statusQuery env mon asyncReq w).2) := by
  obtain ⟨st, hst, hc, he⟩ := h
  simp only [syncLoop, statusQuery, decodedStatus] at hst ⊢
  rcases hq : route_request env _ mon "" w with ⟨r, w1⟩
  rw [hq] at hst
  cases r with
  | error e => cases hst
  | ok resp =>
    simp only at hst ⊢
    cases hb : resp.Body with
    | error e => rw [hb] at hst; cases hst
    | ok b =>
      rw [hb] at hst
      simp only at hst ⊢
      cases hu : env.unmarshalRequestStatus b with
      | error e => rw [hu] at hst; cases hst
      | ok st2 =>
        rw [hu] at hst
        simp only [Option.some.injEq] at hst
        subst hst
        simp [hc, he]

theorem syncLoop_step_true (env : Env) (mon : String) (asyncReq : CephAsyncRequest)
    (fuel : Nat) (w : World) (e : Option String) (w2 : World)
    (h : syncLoop env mon asyncReq (fuel + 1) w = some ((true, e), w2)) :
    (completeOk env (statusQuery env mon asyncReq w).1 ∧ e = none ∧
        w2 = (statusQuery env mon asyncReq w).2) ∨
      (pending env (statusQuery env mon asyncReq w).1 ∧
        syncLoop env mon asyncReq fuel (statusQuery env mon asyncReq w).2 = some ((true, e), w2)) :=
            by
  simp only [syncLoop, statusQuery, completeOk, pending, decodedStatus] at h ⊢
  rcases hq : route_request env _ mon "" w with ⟨r, w1⟩
  rw [hq] at h
  cases r with
  | error e => simp at h
  | ok resp =>
    simp only at h ⊢
    cases hb : resp.Body with
    | error e => rw [hb] at h; simp at h
    | ok b =>
      rw [hb] at h
      simp only at h ⊢
      cases hu : env.unmarshalRequestStatus b with
      | error e => rw [hu] at h; simp at h
      | ok st =>
        rw [hu] at h
        simp only at h ⊢
        by_cases hc : st.State = "complete"
        · rw [if_pos hc] at h
          cases he : st.Error with
          | true => rw [he] at h; simp at h
          | false =>
            rw [he] at h
            simp at h
            left
            exact ⟨⟨st, rfl, hc, he⟩, h.1.symm, h.2.symm⟩
        · rw [if_neg hc] at h
          right
          exact ⟨⟨st, rfl, hc⟩, h⟩

theorem syncLoop_true_sound (env : Env) (mon : String) (asyncReq : CephAsyncRequest) :
    ∀ (fuel : Nat) (w : World) (e : Option String) (w2 : World),
      syncLoop env mon asyncReq fuel w = some ((true, e), w2) →
      e = none ∧ ∃ k, k < fuel ∧ w2 = afterPolls env mon asyncReq (k + 1) w ∧
        completeOk env (statusReply env mon asyncReq w k) ∧
        ∀ j, j < k → pending env (statusReply env mon asyncReq w j) := by
  intro fuel
  induction fuel with
  | zero => intro w e w2 h; simp [syncLoop] at h
  | succ n ih =>
    intro w e w2 h
    rcases syncLoop_step_true env mon asyncReq n w e w2 h with ⟨hc, he, hw⟩ | ⟨hp, hrec⟩
    · refine ⟨he, 0, Nat.succ_pos n, hw, hc, ?_⟩
      intro j hj
      exact absurd hj (Nat.not_lt_zero j)
    · obtain ⟨he, k, hk, hw, hc, hpend⟩ := ih _ e w2 hrec
      refine ⟨he, k + 1, Nat.succ_lt_succ hk, hw, hc, ?_⟩
      intro j hj
      cases j with
      | zero => exact hp
      | succ j => exact hpend j (Nat.lt_of_succ_lt_succ hj)

theorem syncLoop_true_complete (env : Env) (mon : String) (asyncReq : CephAsyncRequest) :
    ∀ (k : Nat) (w : World),
      completeOk env (statusReply env mon asyncReq w k) →
      (∀ j, j < k → pending env (statusReply env mon asyncReq w j)) →
      ∀ fuel, k < fuel →
        syncLoop env mon asyncReq fuel w =
          some ((true, none), afterPolls env mon asyncReq (k + 1) w) := by
  intro k
  induction k with
  | zero =>
    intro w hc _ fuel hf
    obtain ⟨n, rfl⟩ : ∃ n, fuel = n + 1 := ⟨fuel - 1, by omega⟩
    exact syncLoop_step_complete env mon asyncReq n w hc
  | succ k ih =>
    intro w hc hp fuel hf
    obtain ⟨n, rfl⟩ : ∃ n, fuel = n + 1 := ⟨fuel - 1, by omega⟩
    rw [syncLoop_step_pending env mon asyncReq n w (hp 0 (Nat.succ_pos k))]
    exact ih _ hc (fun j hj => hp (j + 1) (Nat.succ_lt_succ hj)) n (by omega)

theorem syncLoop_transport_error (env : Env) (mon : String) (asyncReq : CephAsyncRequest) :
    ∀ (k : Nat) (w : World) (e : String),
      statusReply env mon asyncReq w k = .error e →
      (∀ j, j < k → pending env (statusReply env mon asyncReq w j)) →
      ∀ fuel, k < fuel →
        syncLoop env mon asyncReq fuel w =
          some ((false, some "Error syncing request status from cluster"),
            afterPolls env mon asyncReq (k + 1) w) := by
  intro k
  induction k with
  | zero =>
    intro w e he _ fuel hf
    obtain ⟨n, rfl⟩ : ∃ n, fuel = n + 1 := ⟨fuel - 1, by omega⟩
    exact syncLoop_step_error env mon asyncReq n w e he
  | succ k ih =>
    intro w e he hp fuel hf
    obtain ⟨n, rfl⟩ : ∃ n, fuel = n + 1 := ⟨fuel - 1, by omega⟩
    rw [syncLoop_step_pending env mon asyncReq n w (hp 0 (Nat.succ_pos k))]
    exact ih _ e he (fun j hj => hp (j + 1) (Nat.succ_lt_succ hj)) n (by omega)

theorem syncRequestStatus_parsed (env : Env) (fuel : Nat) (mon : String) (resp : Response)
    (w : World) (body : String) (asyncReq : CephAsyncRequest)
    (hbody : resp.Body = .ok body) (hreq : env.unmarshalAsyncRequest body = .ok asyncReq) :
    syncRequestStatus env fuel mon resp w = syncLoop env mon asyncReq fuel w := by
  simp [syncRequestStatus, hbody, hreq]

/-! ## Frame lemmas: who touches the catalog, who issues calls -/

theorem route_request_routes (env : Env) (route : CephApiRoute) (mon body : String) (w : World) :
    (route_request env route mon body w).2.CEPH_API_ROUTES = w.CEPH_API_ROUTES := by
  unfold route_request issue
  split_ifs <;> rfl

theorem route_request_calls_valid (env : Env) (route : CephApiRoute) (mon body : String)
    (w : World) (h : route.Method ∈ ["POST", "GET", "PATCH", "DELETE"]) :
    (route_request env route mon body w).2.calls.length = w.calls.length + 1 := by
  unfold route_request issue
  simp only [List.mem_cons, List.mem_singleton, List.not_mem_nil, or_false] at h
  split_ifs with h1 h2 h3 h4
  · simp
  · simp
  · simp
  · simp
  · rcases h with h | h | h | h <;> contradiction

theorem afterPolls_routes (env : Env) (mon : String) (asyncReq : CephAsyncRequest) :
    ∀ (k : Nat) (w : World),
      (afterPolls env mon asyncReq k w).CEPH_API_ROUTES = w.CEPH_API_ROUTES := by
  intro k
  induction k with
  | zero => intro w; rfl
  | succ k ih =>
    intro w
    simp only [afterPolls]
    rw [ih]
    exact route_request_routes env _ mon "" w

theorem afterPolls_calls_valid (env : Env) (mon : String) (asyncReq : CephAsyncRequest) :
    ∀ (k : Nat) (w : World),
      (routeAt w.CEPH_API_ROUTES "GetRequestStatus").Method ∈ ["POST", "GET", "PATCH", "DELETE"] →
      (afterPolls env mon asyncReq k w).calls.length = w.calls.length + k := by
  intro k
  induction k with
  | zero => intro w _; rfl
  | succ k ih =>
    intro w h
    simp only [afterPolls]
    have hr : ((statusQuery env mon asyncReq w).2).CEPH_API_ROUTES = w.CEPH_API_ROUTES :=
      route_request_routes env _ mon "" w
    rw [ih _ (by rw [hr]; exact h)]
    have hlen : (statusQuery env mon asyncReq w).2.calls.length = w.calls.length + 1 :=
      route_request_calls_valid env
        { routeAt w.CEPH_API_ROUTES "GetRequestStatus" with
          Pattern := stringsReplaceOnce (routeAt w.CEPH_API_ROUTES "GetRequestStatus").Pattern
            "{request-fsid}" asyncReq.RequestId } mon "" w h
    rw [hlen]
    omega

/-! ## The poller: claims on `syncRequestStatus` -/

/-- C1: for a response whose body parses as a job handle, `syncRequestStatus` returns
`success = true` exactly when some status reply it reads says `state == "complete"` with
`error == false`, every reply before it being a parsed non-complete one; that reply is the
last one read, and the error returned with `true` is nil. -/
theorem syncRequestStatus_success_iff (env : Env) (mon : String) (resp : Response) (w : World)
    (body : String) (asyncReq : CephAsyncRequest)
    (hbody : resp.Body = .ok body) (hreq : env.unmarshalAsyncRequest body = .ok asyncReq) :
    (∀ fuel e w2, syncRequestStatus env fuel mon resp w = some ((true, e), w2) →
        e = none ∧ ∃ k, k < fuel ∧ w2 = afterPolls env mon asyncReq (k + 1) w ∧
          completeOk env (statusReply env mon asyncReq w k) ∧
          ∀ j, j < k → pending env (statusReply env mon asyncReq w j)) ∧
    (∀ k, completeOk env (statusReply env mon asyncReq w k) →
        (∀ j, j < k → pending env (statusReply env mon asyncReq w j)) →
        ∀ fuel, k < fuel →
          syncRequestStatus env fuel mon resp w =
            some ((true, none), afterPolls env mon asyncReq (k + 1) w)) := by
  constructor
  · intro fuel e w2 h
    rw [syncRequestStatus_parsed env fuel mon resp w body asyncReq hbody hreq] at h
    exact syncLoop_true_sound env mon asyncReq fuel w e w2 h
  · intro k hc hp fuel hf
    rw [syncRequestStatus_parsed env fuel mon resp w body asyncReq hbody hreq]
    exact syncLoop_true_complete env mon asyncReq k w hc hp fuel hf

/-- Scenario 1 of the specification, from the accepted request on: the first status
query finds the job submitted, the second finds it complete, and the poller returns
`(true, nil)` after these two queries. -/
theorem syncRequestStatus_success_iff_witness :
    syncRequestStatus (scenarioEnv happyTransport) 2 "mon-1" ⟨202, .ok handleBody⟩
        worldAfterRequest =
      some ((true, none),
        afterPolls (scenarioEnv happyTransport) "mon-1" ⟨"r-1"⟩ 2 worldAfterRequest) :=
  (syncRequestStatus_success_iff (scenarioEnv happyTransport) "mon-1" ⟨202, .ok handleBody⟩
      worldAfterRequest handleBody ⟨"r-1"⟩ rfl rfl).2 1
    ⟨⟨"complete", false, ""⟩, rfl, rfl, rfl⟩
    (fun j hj => by
      obtain rfl : j = 0 := by omega
      exact ⟨⟨"submitted", false, ""⟩, rfl, by decide⟩)
    2 (by decide)

/-- C2: when status query number `k` is the first that fails in transport and every earlier
reply was a parsed non-complete one, the poller returns `(false, error)` in the world reached
after exactly `k` status queries, for every fuel that allows `k` iterations: it does not query
again.  With a catalog entry of a known method these are `k` transport calls. -/
theorem syncRequestStatus_transport_error_stops (env : Env) (mon : String) (resp : Response)
    (w : World) (body : String) (asyncReq : CephAsyncRequest)
    (hbody : resp.Body = .ok body) (hreq : env.unmarshalAsyncRequest body = .ok asyncReq)
    (k : Nat) (hk : 0 < k) (e : String)
    (herr : statusReply env mon asyncReq w (k - 1) = .error e)
    (hearlier : ∀ j, j < k - 1 → pending env (statusReply env mon asyncReq w j)) :
    (∀ fuel, k ≤ fuel →
        syncRequestStatus env fuel mon resp w =
          some ((false, some "Error syncing request status from cluster"),
            afterPolls env mon asyncReq k w)) ∧
    (afterPolls env mon asyncReq k w).CEPH_API_ROUTES = w.CEPH_API_ROUTES ∧
    ((routeAt w.CEPH_API_ROUTES "GetRequestStatus").Method ∈ ["POST", "GET", "PATCH", "DELETE"] →
      (afterPolls env mon asyncReq k w).calls.length = w.calls.length + k) := by
  obtain ⟨n, rfl⟩ : ∃ n, k = n + 1 := ⟨k - 1, by omega⟩
  refine ⟨?_, afterPolls_routes env mon asyncReq _ w, afterPolls_calls_valid env mon asyncReq _ w⟩
  intro fuel hf
  rw [syncRequestStatus_parsed env fuel mon resp w body asyncReq hbody hreq]
  exact syncLoop_transport_error env mon asyncReq n w e herr hearlier fuel (by omega)

/-- A server that answers one status query and then refuses the connection: the second
query is the first to fail, and the poller stops there with an error, two calls after the
initial request. -/
theorem syncRequestStatus_transport_error_stops_witness :
    (∀ fuel, 2 ≤ fuel →
        syncRequestStatus (scenarioEnv droppingTransport) fuel "mon-1" ⟨202, .ok handleBody⟩
            worldAfterRequest =
          some ((false, some "Error syncing request status from cluster"),
            afterPolls (scenarioEnv droppingTransport) "mon-1" ⟨"r-1"⟩ 2 worldAfterRequest)) ∧
    (afterPolls (scenarioEnv droppingTransport) "mon-1" ⟨"r-1"⟩ 2
        worldAfterRequest).CEPH_API_ROUTES = worldAfterRequest.CEPH_API_ROUTES ∧
    (afterPolls (scenarioEnv droppingTransport) "mon-1" ⟨"r-1"⟩ 2 worldAfterRequest).calls.length
      = worldAfterRequest.calls.length + 2 :=
  have h := syncRequestStatus_transport_error_stops (scenarioEnv droppingTransport) "mon-1"
    ⟨202, .ok handleBody⟩ worldAfterRequest handleBody ⟨"r-1"⟩ rfl rfl 2 (by decide)
    "connection refused" rfl
    (fun j hj => by
      obtain rfl : j = 0 := by omega
      exact ⟨⟨"submitted", false, ""⟩, rfl, by decide⟩)
  ⟨h.1, h.2.1, h.2.2 (by decide)⟩

/-! ## The mutating operations -/

/-- C3: each mutating operation is gated by its initial request.  When `route_request`
fails, or answers with a status other than 200 and 202, the operation returns
`(false, error)` in the world right after that request, so no status query is issued; with
status 200 or 202 its result is that of `syncRequestStatus` on the response. -/
theorem mutating_operations_gated (env : Env) (fuel : Nat) (mon : String) (w : World) :
    (∀ (name clusterName : String) (pgnum : Nat) (replicas quotaMaxObjects : Int)
        (quotaMaxBytes : Nat) (cid buf : String),
        cluster_id env clusterName = .ok cid →
        env.jsonMarshal (createPoolBody name pgnum replicas quotaMaxObjects quotaMaxBytes)
          = .ok buf →
        gatedByInitialRequest env fuel mon
          (route_request env (boundRoute w "CreatePool" [("cluster-fsid", cid)]) mon buf w)
          (CreatePool env fuel name mon clusterName pgnum replicas quotaMaxObjects
            quotaMaxBytes w)) ∧
    (∀ (clusterId : UUID) (poolId : Int) (pool : GoValue) (buf : String),
        env.jsonMarshal pool = .ok buf →
        gatedByInitialRequest env fuel mon
          (route_request env
            (boundRoute w "UpdatePool"
              [("cluster-fsid", clusterId.String), ("pool-id", toString poolId)]) mon buf w)
          (UpdatePool env fuel mon clusterId poolId pool w)) ∧
    (∀ (clusterId : UUID) (poolId : Int),
        gatedByInitialRequest env fuel mon
          (route_request env
            (boundRoute w "RemovePool"
              [("cluster-fsid", clusterId.String), ("pool-id", toString poolId)]) mon "" w)
          (RemovePool env fuel mon clusterId poolId w)) ∧
    (∀ (clusterId : UUID) (osdId : String) (params : GoValue) (buf : String),
        env.jsonMarshal params = .ok buf →
        gatedByInitialRequest env fuel mon
          (route_request env
            (boundRoute w "UpdateOSD" [("cluster-fsid", clusterId.String), ("osd-id", osdId)])
            mon buf w)
          (UpdateOSD env fuel mon clusterId osdId params w)) := by
  refine ⟨?_, ?_, ?_, ?_⟩
  · intro name clusterName pgnum replicas quotaMaxObjects quotaMaxBytes cid buf hc hm
    have hb : boundRoute w "CreatePool" [("cluster-fsid", cid)] =
        { routeAt w.CEPH_API_ROUTES "CreatePool" with
          Pattern := stringsReplaceOnce (routeAt w.CEPH_API_ROUTES "CreatePool").Pattern
            "{cluster-fsid}" cid } := rfl
    rw [hb]
    simp only [CreatePool, hc, hm, gatedByInitialRequest]
    rcases route_request env _ mon buf w with ⟨r, w1⟩
    cases r with
    | error err => exact ⟨_, rfl⟩
    | ok resp =>
      simp only
      by_cases h : resp.StatusCode = 200 ∨ resp.StatusCode = 202
      · have h2 : ¬ (resp.StatusCode ≠ 200 ∧ resp.StatusCode ≠ 202) := by
          rcases h with h | h <;> simp [h]
        rw [if_pos h, if_neg h2]
      · have h2 : resp.StatusCode ≠ 200 ∧ resp.StatusCode ≠ 202 := by
          constructor <;> intro h3 <;> exact h (by simp [h3])
        rw [if_neg h, if_pos h2]
        exact ⟨_, rfl⟩
  · intro clusterId poolId pool buf hm
    have hb : boundRoute w "UpdatePool"
        [("cluster-fsid", clusterId.String), ("pool-id", toString poolId)] =
        { routeAt w.CEPH_API_ROUTES "UpdatePool" with
          Pattern := stringsReplaceOnce (stringsReplaceOnce
            (routeAt w.CEPH_API_ROUTES "UpdatePool").Pattern "{cluster-fsid}" clusterId.String)
            "{pool-id}" (toString poolId) } := rfl
    rw [hb]
    simp only [UpdatePool, hm, gatedByInitialRequest]
    rcases route_request env _ mon buf w with ⟨r, w1⟩
    cases r with
    | error err => exact ⟨_, rfl⟩
    | ok resp =>
      simp only
      by_cases h : resp.StatusCode = 200 ∨ resp.StatusCode = 202
      · have h2 : ¬ (resp.StatusCode ≠ 200 ∧ resp.StatusCode ≠ 202) := by
          rcases h with h | h <;> simp [h]
        rw [if_pos h, if_neg h2]
      · have h2 : resp.StatusCode ≠ 200 ∧ resp.StatusCode ≠ 202 := by
          constructor <;> intro h3 <;> exact h (by simp [h3])
        rw [if_neg h, if_pos h2]
        exact ⟨_, rfl⟩
  · intro clusterId poolId
    have hb : boundRoute w "RemovePool"
        [("cluster-fsid", clusterId.String), ("pool-id", toString poolId)] =
        { routeAt w.CEPH_API_ROUTES "RemovePool" with
          Pattern := stringsReplaceOnce (stringsReplaceOnce
            (routeAt w.CEPH_API_ROUTES "RemovePool").Pattern "{cluster-fsid}" clusterId.String)
            "{pool-id}" (toString poolId) } := rfl
    rw [hb]
    simp only [RemovePool, gatedByInitialRequest]
    rcases route_request env _ mon "" w with ⟨r, w1⟩
    cases r with
    | error err => exact ⟨_, rfl⟩
    | ok resp =>
      simp only
      by_cases h : resp.StatusCode = 200 ∨ resp.StatusCode = 202
      · have h2 : ¬ (resp.StatusCode ≠ 200 ∧ resp.StatusCode ≠ 202) := by
          rcases h with h | h <;> simp [h]
        rw [if_pos h, if_neg h2]
      · have h2 : resp.StatusCode ≠ 200 ∧ resp.StatusCode ≠ 202 := by
          constructor <;> intro h3 <;> exact h (by simp [h3])
        rw [if_neg h, if_pos h2]
        exact ⟨_, rfl⟩
  · intro clusterId osdId params buf hm
    have hb : boundRoute w "UpdateOSD" [("cluster-fsid", clusterId.String), ("osd-id", osdId)] =
        { routeAt w.CEPH_API_ROUTES "UpdateOSD" with
          Pattern := stringsReplaceOnce (stringsReplaceOnce
            (routeAt w.CEPH_API_ROUTES "UpdateOSD").Pattern "{cluster-fsid}" clusterId.String)
            "{osd-id}" osdId } := rfl
    rw [hb]
    simp only [UpdateOSD, hm, gatedByInitialRequest]
    rcases route_request env _ mon buf w with ⟨r, w1⟩
    cases r with
    | error err => exact ⟨_, rfl⟩
    | ok resp =>
      simp only
      by_cases h : resp.StatusCode = 200 ∨ resp.StatusCode = 202
      · have h2 : ¬ (resp.StatusCode ≠ 200 ∧ resp.StatusCode ≠ 202) := by
          rcases h with h | h <;> simp [h]
        rw [if_pos h, if_neg h2]
      · have h2 : resp.StatusCode ≠ 200 ∧ resp.StatusCode ≠ 202 := by
          constructor <;> intro h3 <;> exact h (by simp [h3])
        rw [if_neg h, if_pos h2]
        exact ⟨_, rfl⟩

/-- Scenarios 6 and 1 of the specification: with every connection refused `UpdatePool`
fails in the world holding just its PATCH request; with the accepting server `CreatePool`
returns what the poller returns on the 202 response. -/
theorem mutating_operations_gated_witness :
    (∃ msg, UpdatePool (scenarioEnv refusingTransport) 3 "mon-1" scenarioClusterId 7 .null
        scenarioWorld =
      some ((false, some msg),
        ⟨specRoutes, [.HttpPatch "mon-1"
            "http://mon-1:8002/api/v2/cluster/00000000-0000-0000-0000-0000000000aa/pool/7"
          "application/json" "body"]⟩)) ∧
    CreatePool (scenarioEnv happyTransport) 3 "rbd" "mon-1" "c1" 128 3 0 0 scenarioWorld =
      syncRequestStatus (scenarioEnv happyTransport) 3 "mon-1" ⟨202, .ok handleBody⟩
        worldAfterRequest :=
  ⟨(mutating_operations_gated (scenarioEnv refusingTransport) 3 "mon-1" scenarioWorld).2.1
      scenarioClusterId 7 .null "body" rfl,
    (mutating_operations_gated (scenarioEnv happyTransport) 3 "mon-1" scenarioWorld).1
      "rbd" "c1" 128 3 0 0 "00000000-0000-0000-0000-0000000000aa" "body" rfl rfl⟩

/-! ## Dispatch in `route_request` -/

/-- C10: `route_request` dispatches on the method of the route.  For GET, POST, PATCH and
DELETE it issues exactly one call of the matching transport primitive, with the URL
`http://<mon>:<port>/<prefix>/v<version>/<pattern>`, and for the three non-GET methods with
content type `application/json` and the given body; its result is that call's outcome.  For
any other method it issues no call and returns the error `Invalid method type: <method>`. -/
theorem route_request_dispatch (env : Env) (route : CephApiRoute) (mon body : String)
    (w : World) :
    apiUrl env mon route =
      "http://" ++ mon ++ ":" ++ toString env.CEPH_API_PORT ++ "/" ++
        env.CEPH_API_DEFAULT_PREFIX ++ "/v" ++ toString route.Version ++ "/" ++ route.Pattern ∧
    (route.Method = "GET" →
      route_request env route mon body w =
        (env.transport w.calls.length (.HttpGet (apiUrl env mon route)),
          ⟨w.CEPH_API_ROUTES, w.calls ++ [.HttpGet (apiUrl env mon route)]⟩)) ∧
    (route.Method = "POST" →
      route_request env route mon body w =
        (env.transport w.calls.length
            (.HttpPost mon (apiUrl env mon route) "application/json" body),
          ⟨w.CEPH_API_ROUTES,
            w.calls ++ [.HttpPost mon (apiUrl env mon route) "application/json" body]⟩)) ∧
    (route.Method = "PATCH" →
      route_request env route mon body w =
        (env.transport w.calls.length
            (.HttpPatch mon (apiUrl env mon route) "application/json" body),
          ⟨w.CEPH_API_ROUTES,
            w.calls ++ [.HttpPatch mon (apiUrl env mon route) "application/json" body]⟩)) ∧
    (route.Method = "DELETE" →
      route_request env route mon body w =
        (env.transport w.calls.length
            (.HttpDelete mon (apiUrl env mon route) "application/json" body),
          ⟨w.CEPH_API_ROUTES,
            w.calls ++ [.HttpDelete mon (apiUrl env mon route) "application/json" body]⟩)) ∧
    (route.Method ∉ ["GET", "POST", "PATCH", "DELETE"] →
      route_request env route mon body w =
        (.error ("Invalid method type: " ++ route.Method), w)) := by
  refine ⟨rfl, ?_, ?_, ?_, ?_, ?_⟩
  · intro h
    simp [route_request, issue, h]
  · intro h
    simp [route_request, issue, h]
  · intro h
    simp [route_request, issue, h]
  · intro h
    simp [route_request, issue, h]
  · intro h
    simp only [List.mem_cons, List.mem_singleton, List.not_mem_nil, or_false, not_or] at h
    simp [route_request, h.1, h.2.1, h.2.2.1, h.2.2.2]

/-- The status route of the specification bound to job `r-1` is a GET on
`http://mon-1:8002/api/v2/request/r-1`, and a route with method `PUT` issues nothing. -/
theorem route_request_dispatch_witness :
    route_request (scenarioEnv happyTransport) ⟨"request/r-1", "GET", 2⟩ "mon-1" "" scenarioWorld
      = (.ok ⟨202, .ok handleBody⟩,
          ⟨specRoutes, [.HttpGet "http://mon-1:8002/api/v2/request/r-1"]⟩) ∧
    route_request (scenarioEnv happyTransport) ⟨"request/r-1", "PUT", 2⟩ "mon-1" "" scenarioWorld
      = (.error "Invalid method type: PUT", scenarioWorld) :=
  ⟨(route_request_dispatch (scenarioEnv happyTransport) ⟨"request/r-1", "GET", 2⟩ "mon-1" ""
      scenarioWorld).2.1 rfl,
    (route_request_dispatch (scenarioEnv happyTransport) ⟨"request/r-1", "PUT", 2⟩ "mon-1" ""
      scenarioWorld).2.2.2.2.2 (by decide)⟩

end cephapi

namespace cephapi

/-! ## The catalog is never written -/

theorem syncLoop_routes (env : Env) (mon : String) (asyncReq : CephAsyncRequest) :
    ∀ (fuel : Nat) (w : World) (r : BoolErr) (w2 : World),
      syncLoop env mon asyncReq fuel w = some (r, w2) →
      w2.CEPH_API_ROUTES = w.CEPH_API_ROUTES := by
  intro fuel
  induction fuel with
  | zero => intro w r w2 h; simp [syncLoop] at h
  | succ n ih =>
    intro w r w2 h
    simp only [syncLoop] at h
    have hr := route_request_routes env
      { routeAt w.CEPH_API_ROUTES "GetRequestStatus" with
        Pattern := stringsReplaceOnce (routeAt w.CEPH_API_ROUTES "GetRequestStatus").Pattern
          "{request-fsid}" asyncReq.RequestId } mon "" w
    rcases hq : route_request env _ mon "" w with ⟨q, w1⟩
    rw [hq] at h hr
    simp only at hr
    cases q with
    | error e =>
      simp only [Option.some.injEq, Prod.mk.injEq] at h
      rw [← h.2, hr]
    | ok resp =>
      simp only at h
      split at h
      · simp only [Option.some.injEq, Prod.mk.injEq] at h
        rw [← h.2, hr]
      · split at h
        · simp only [Option.some.injEq, Prod.mk.injEq] at h
          rw [← h.2, hr]
        · split at h
          · split at h
            · simp only [Option.some.injEq, Prod.mk.injEq] at h
              rw [← h.2, hr]
            · simp only [Option.some.injEq, Prod.mk.injEq] at h
              rw [← h.2, hr]
          · rw [ih w1 r w2 h, hr]

theorem syncRequestStatus_routes (env : Env) (fuel : Nat) (mon : String) (resp : Response)
    (w : World) (r : BoolErr) (w2 : World)
    (h : syncRequestStatus env fuel mon resp w = some (r, w2)) :
    w2.CEPH_API_ROUTES = w.CEPH_API_ROUTES := by
  simp only [syncRequestStatus] at h
  split at h
  · simp only [Option.some.injEq, Prod.mk.injEq] at h
    rw [← h.2]
  · split at h
    · simp only [Option.some.injEq, Prod.mk.injEq] at h
      rw [← h.2]
    · exact syncLoop_routes env mon _ fuel w r w2 h

theorem UpdatePool_routes (env : Env) (fuel : Nat) (mon : String) (clusterId : UUID)
    (poolId : Int) (pool : GoValue) (w : World) (r : BoolErr) (w2 : World)
    (h : UpdatePool env fuel mon clusterId poolId pool w = some (r, w2)) :
    w2.CEPH_API_ROUTES = w.CEPH_API_ROUTES := by
  simp only [UpdatePool] at h
  split at h
  · simp only [Option.some.injEq, Prod.mk.injEq] at h
    rw [← h.2]
  · rename_i buf _
    have hr := route_request_routes env ({ routeAt w.CEPH_API_ROUTES "UpdatePool" with
        Pattern := stringsReplaceOnce (stringsReplaceOnce
          (routeAt w.CEPH_API_ROUTES "UpdatePool").Pattern "{cluster-fsid}" clusterId.String)
              "{pool-id}" (toString poolId) }) mon buf w
    rcases hq : route_request env ({ routeAt w.CEPH_API_ROUTES "UpdatePool" with
        Pattern := stringsReplaceOnce (stringsReplaceOnce
          (routeAt w.CEPH_API_ROUTES "UpdatePool").Pattern "{cluster-fsid}" clusterId.String)
              "{pool-id}" (toString poolId) }) mon buf w with ⟨q, w1⟩
    rw [hq] at h hr
    simp only at hr
    cases q with
    | error e =>
      simp only [Option.some.injEq, Prod.mk.injEq] at h
      rw [← h.2, hr]
    | ok resp =>
      simp only at h
      split at h
      · simp only [Option.some.injEq, Prod.mk.injEq] at h
        rw [← h.2, hr]
      · rw [syncRequestStatus_routes env fuel mon resp w1 r w2 h, hr]

theorem UpdateOSD_routes (env : Env) (fuel : Nat) (mon : String) (clusterId : UUID)
    (osdId : String) (params : GoValue) (w : World) (r : BoolErr) (w2 : World)
    (h : UpdateOSD env fuel mon clusterId osdId params w = some (r, w2)) :
    w2.CEPH_API_ROUTES = w.CEPH_API_ROUTES := by
  simp only [UpdateOSD] at h
  split at h
  · simp only [Option.some.injEq, Prod.mk.injEq] at h
    rw [← h.2]
  · rename_i buf _
    have hr := route_request_routes env ({ routeAt w.CEPH_API_ROUTES "UpdateOSD" with
        Pattern := stringsReplaceOnce (stringsReplaceOnce
          (routeAt w.CEPH_API_ROUTES "UpdateOSD").Pattern "{cluster-fsid}" clusterId.String)
              "{osd-id}" osdId }) mon buf w
    rcases hq : route_request env ({ routeAt w.CEPH_API_ROUTES "UpdateOSD" with
        Pattern := stringsReplaceOnce (stringsReplaceOnce
          (routeAt w.CEPH_API_ROUTES "UpdateOSD").Pattern "{cluster-fsid}" clusterId.String)
              "{osd-id}" osdId }) mon buf w with ⟨q, w1⟩
    rw [hq] at h hr
    simp only at hr
    cases q with
    | error e =>
      simp only [Option.some.injEq, Prod.mk.injEq] at h
      rw [← h.2, hr]
    | ok resp =>
      simp only at h
      split at h
      · simp only [Option.some.injEq, Prod.mk.injEq] at h
        rw [← h.2, hr]
      · rw [syncRequestStatus_routes env fuel mon resp w1 r w2 h, hr]

theorem RemovePool_routes (env : Env) (fuel : Nat) (mon : String) (clusterId : UUID)
    (poolId : Int) (w : World) (r : BoolErr) (w2 : World)
    (h : RemovePool env fuel mon clusterId poolId w = some (r, w2)) :
    w2.CEPH_API_ROUTES = w.CEPH_API_ROUTES := by
  simp only [RemovePool] at h
  have hr := route_request_routes env ({ routeAt w.CEPH_API_ROUTES "RemovePool" with
        Pattern := stringsReplaceOnce (stringsReplaceOnce
          (routeAt w.CEPH_API_ROUTES "RemovePool").Pattern "{cluster-fsid}" clusterId.String)
              "{pool-id}" (toString poolId) }) mon "" w
  rcases hq : route_request env ({ routeAt w.CEPH_API_ROUTES "RemovePool" with
        Pattern := stringsReplaceOnce (stringsReplaceOnce
          (routeAt w.CEPH_API_ROUTES "RemovePool").Pattern "{cluster-fsid}" clusterId.String)
              "{pool-id}" (toString poolId) }) mon "" w with ⟨q, w1⟩
  rw [hq] at h hr
  simp only at hr
  cases q with
  | error e =>
    simp only [Option.some.injEq, Prod.mk.injEq] at h
    rw [← h.2, hr]
  | ok resp =>
    simp only at h
    split at h
    · simp only [Option.some.injEq, Prod.mk.injEq] at h
      rw [← h.2, hr]
    · rw [syncRequestStatus_routes env fuel mon resp w1 r w2 h, hr]

theorem CreatePool_routes (env : Env) (fuel : Nat) (name mon clusterName : String) (pgnum : Nat)
    (replicas quotaMaxObjects : Int) (quotaMaxBytes : Nat) (w : World) (r : BoolErr)
    (w2 : World)
    (h : CreatePool env fuel name mon clusterName pgnum replicas quotaMaxObjects quotaMaxBytes w
      = some (r, w2)) :
    w2.CEPH_API_ROUTES = w.CEPH_API_ROUTES := by
  simp only [CreatePool] at h
  split at h
  · simp only [Option.some.injEq, Prod.mk.injEq] at h
    rw [← h.2]
  · rename_i cid _
    split at h
    · simp only [Option.some.injEq, Prod.mk.injEq] at h
      rw [← h.2]
    · rename_i buf _
      have hr := route_request_routes env ({ routeAt w.CEPH_API_ROUTES "CreatePool" with
          Pattern := stringsReplaceOnce (routeAt w.CEPH_API_ROUTES "CreatePool").Pattern
              "{cluster-fsid}" cid }) mon buf w
      rcases hq : route_request env ({ routeAt w.CEPH_API_ROUTES "CreatePool" with
          Pattern := stringsReplaceOnce (routeAt w.CEPH_API_ROUTES "CreatePool").Pattern
              "{cluster-fsid}" cid }) mon buf w with ⟨q, w1⟩
      rw [hq] at h hr
      simp only at hr
      cases q with
      | error e =>
        simp only [Option.some.injEq, Prod.mk.injEq] at h
        rw [← h.2, hr]
      | ok resp =>
        simp only at h
        split at h
        · simp only [Option.some.injEq, Prod.mk.injEq] at h
          rw [← h.2, hr]
        · rw [syncRequestStatus_routes env fuel mon resp w1 r w2 h, hr]

/-! ## Read operations: one request, nothing else -/

theorem GetPools_world {CephPool CephOSD PgSummary : Type} (env : Env)
    (dec : Decoders CephPool CephOSD PgSummary) (mon : String) (clusterId : UUID) (w : World) :
    (GetPools env dec mon clusterId w).2 =
      (route_request env (boundRoute w "GetPools" [("cluster-fsid", clusterId.String)])
        mon "" w).2 := by
  have hb : boundRoute w "GetPools" [("cluster-fsid", clusterId.String)] = ({ routeAt
      w.CEPH_API_ROUTES "GetPools" with
        Pattern := stringsReplaceOnce (routeAt w.CEPH_API_ROUTES "GetPools").Pattern
            "{cluster-fsid}" clusterId.String }) := rfl
  rw [hb]
  simp only [GetPools]
  rcases route_request env _ mon "" w with ⟨q, w1⟩
  cases q with
  | error e => rfl
  | ok resp =>
    simp only
    split
    · rfl
    · split <;> rfl

theorem GetOSDs_world {CephPool CephOSD PgSummary : Type} (env : Env)
    (dec : Decoders CephPool CephOSD PgSummary) (mon : String) (clusterId : UUID) (w : World) :
    (GetOSDs env dec mon clusterId w).2 =
      (route_request env (boundRoute w "GetOSDs" [("cluster-fsid", clusterId.String)])
        mon "" w).2 := by
  have hb : boundRoute w "GetOSDs" [("cluster-fsid", clusterId.String)] = ({ routeAt
      w.CEPH_API_ROUTES "GetOSDs" with
        Pattern := stringsReplaceOnce (routeAt w.CEPH_API_ROUTES "GetOSDs").Pattern "{cluster-fsid}"
            clusterId.String }) := rfl
  rw [hb]
  simp only [GetOSDs]
  rcases route_request env _ mon "" w with ⟨q, w1⟩
  cases q with
  | error e => rfl
  | ok resp =>
    simp only
    split
    · rfl
    · split <;> rfl

theorem GetOSD_world {CephPool CephOSD PgSummary : Type} (env : Env)
    (dec : Decoders CephPool CephOSD PgSummary) (mon : String) (clusterId : UUID)
    (osdId : String) (w : World) :
    (GetOSD env dec mon clusterId osdId w).2 =
      (route_request env
        (boundRoute w "GetOSD" [("cluster-fsid", clusterId.String), ("osd-id", osdId)])
        mon "" w).2 := by
  have hb : boundRoute w "GetOSD" [("cluster-fsid", clusterId.String), ("osd-id", osdId)]
      = ({ routeAt w.CEPH_API_ROUTES "GetOSD" with
        Pattern := stringsReplaceOnce (stringsReplaceOnce
          (routeAt w.CEPH_API_ROUTES "GetOSD").Pattern "{cluster-fsid}" clusterId.String) "{osd-id}"
              osdId }) := rfl
  rw [hb]
  simp only [GetOSD]
  rcases route_request env _ mon "" w with ⟨q, w1⟩
  cases q with
  | error e => rfl
  | ok resp =>
    simp only
    split
    · rfl
    · split
      · rfl
      · split <;> rfl

theorem GetPGSummary_world {CephPool CephOSD PgSummary : Type} (env : Env)
    (dec : Decoders CephPool CephOSD PgSummary) (mon : String) (clusterId : UUID) (w : World) :
    (GetPGSummary env dec mon clusterId w).2 =
      (route_request env (boundRoute w "PGStatistics" [("cluster-fsid", clusterId.String)])
        mon "" w).2 := by
  have hb : boundRoute w "PGStatistics" [("cluster-fsid", clusterId.String)]
      = ({ routeAt w.CEPH_API_ROUTES "PGStatistics" with
        Pattern := stringsReplaceOnce (routeAt w.CEPH_API_ROUTES "PGStatistics").Pattern
            "{cluster-fsid}" clusterId.String }) := rfl
  rw [hb]
  simp only [GetPGSummary]
  rcases route_request env _ mon "" w with ⟨q, w1⟩
  cases q with
  | error e => rfl
  | ok resp =>
    simp only
    split
    · rfl
    · split <;> rfl

theorem GetPGCount_world (env : Env) (mon : String) (clusterId : UUID) (ctxt : String)
    (w : World) :
    (GetPGCount env mon clusterId ctxt w).2 =
      (route_request env (boundRoute w "GetPGCount" [("cluster-fsid", clusterId.String)])
        mon "" w).2 := by
  have hb : boundRoute w "GetPGCount" [("cluster-fsid", clusterId.String)]
      = ({ routeAt w.CEPH_API_ROUTES "GetPGCount" with
        Pattern := stringsReplaceOnce (routeAt w.CEPH_API_ROUTES "GetPGCount").Pattern
            "{cluster-fsid}" clusterId.String }) := rfl
  rw [hb]
  simp only [GetPGCount]
  rcases route_request env _ mon "" w with ⟨q, w1⟩
  cases q with
  | error e => rfl
  | ok resp =>
    simp only
    split
    · rfl
    · split
      · rfl
      · split
        · rfl
        · split
          · rfl
          · split
            · rfl
            · split <;> rfl

theorem ExecCmd_routes (env : Env) (mon : String) (clusterId : UUID) (cmd : String)
    (w : World) :
    (ExecCmd env mon clusterId cmd w).2.CEPH_API_ROUTES = w.CEPH_API_ROUTES := by
  simp only [ExecCmd]
  split
  · rfl
  · rename_i buf _
    have hr := route_request_routes env ({ routeAt w.CEPH_API_ROUTES "ExecCmd" with
        Pattern := stringsReplaceOnce (routeAt w.CEPH_API_ROUTES "ExecCmd").Pattern
          "{cluster-fsid}" clusterId.String }) mon buf w
    rcases hq : route_request env _ mon buf w with ⟨q, w1⟩
    rw [hq] at hr
    simp only at hr
    cases q with
    | error e => exact hr
    | ok resp =>
      simp only
      split
      · exact hr
      · split
        · exact hr
        · split
          · exact hr
          · split <;> exact hr

/-- C9: no operation writes the route catalog.  Whenever a mutating operation returns, after
every read operation and `ExecCmd`, and after any number of status queries of a poll,
`CEPH_API_ROUTES` is what it was before: binding rewrites the copy obtained by the map
index.  Hence a second binding of the same entry, with any substitution, starts again from
the original unbound pattern, and a second `UpdatePool` behaves as on the original
catalog. -/
theorem catalog_unchanged_by_operations (env : Env) (w : World) :
    (∀ fuel mon clusterId poolId pool r w1,
        UpdatePool env fuel mon clusterId poolId pool w = some (r, w1) →
        w1.CEPH_API_ROUTES = w.CEPH_API_ROUTES ∧
        (∀ subst, (boundRoute w1 "UpdatePool" subst).Pattern =
          bindPattern (routeAt w.CEPH_API_ROUTES "UpdatePool").Pattern subst) ∧
        (∀ fuel2 mon2 clusterId2 poolId2 pool2,
          UpdatePool env fuel2 mon2 clusterId2 poolId2 pool2 w1 =
            UpdatePool env fuel2 mon2 clusterId2 poolId2 pool2
              ⟨w.CEPH_API_ROUTES, w1.calls⟩)) ∧
    (∀ fuel name mon clusterName pgnum replicas quotaMaxObjects quotaMaxBytes r w1,
        CreatePool env fuel name mon clusterName pgnum replicas quotaMaxObjects quotaMaxBytes w
          = some (r, w1) →
        w1.CEPH_API_ROUTES = w.CEPH_API_ROUTES) ∧
    (∀ fuel mon clusterId poolId r w1,
        RemovePool env fuel mon clusterId poolId w = some (r, w1) →
        w1.CEPH_API_ROUTES = w.CEPH_API_ROUTES) ∧
    (∀ fuel mon clusterId osdId params r w1,
        UpdateOSD env fuel mon clusterId osdId params w = some (r, w1) →
        w1.CEPH_API_ROUTES = w.CEPH_API_ROUTES) ∧
    (∀ (CephPool CephOSD PgSummary : Type) (dec : Decoders CephPool CephOSD PgSummary)
        (mon : String) (clusterId : UUID) (osdId : String),
        (GetPools env dec mon clusterId w).2.CEPH_API_ROUTES = w.CEPH_API_ROUTES ∧
        (GetOSDs env dec mon clusterId w).2.CEPH_API_ROUTES = w.CEPH_API_ROUTES ∧
        (GetOSD env dec mon clusterId osdId w).2.CEPH_API_ROUTES = w.CEPH_API_ROUTES ∧
        (GetPGSummary env dec mon clusterId w).2.CEPH_API_ROUTES = w.CEPH_API_ROUTES) ∧
    (∀ mon clusterId ctxt,
        (GetPGCount env mon clusterId ctxt w).2.CEPH_API_ROUTES = w.CEPH_API_ROUTES) ∧
    (∀ mon clusterId cmd,
        (ExecCmd env mon clusterId cmd w).2.CEPH_API_ROUTES = w.CEPH_API_ROUTES) ∧
    (∀ mon asyncReq k,
        (afterPolls env mon asyncReq k w).CEPH_API_ROUTES = w.CEPH_API_ROUTES) := by
  refine ⟨?_, ?_, ?_, ?_, ?_, ?_, ?_,
    fun mon asyncReq k => afterPolls_routes env mon asyncReq k w⟩
  · intro fuel mon clusterId poolId pool r w1 h
    have hr := UpdatePool_routes env fuel mon clusterId poolId pool w r w1 h
    refine ⟨hr, ?_, ?_⟩
    · intro subst
      simp only [boundRoute, hr]
    · intro fuel2 mon2 clusterId2 poolId2 pool2
      have hw : w1 = ⟨w.CEPH_API_ROUTES, w1.calls⟩ := by
        rw [← hr]
      rw [← hw]
  · intro fuel name mon clusterName pgnum replicas quotaMaxObjects quotaMaxBytes r w1 h
    exact CreatePool_routes env fuel name mon clusterName pgnum replicas quotaMaxObjects
      quotaMaxBytes w r w1 h
  · intro fuel mon clusterId poolId r w1 h
    exact RemovePool_routes env fuel mon clusterId poolId w r w1 h
  · intro fuel mon clusterId osdId params r w1 h
    exact UpdateOSD_routes env fuel mon clusterId osdId params w r w1 h
  · intro CephPool CephOSD PgSummary dec mon clusterId osdId
    refine ⟨?_, ?_, ?_, ?_⟩
    · rw [GetPools_world]
      exact route_request_routes env _ mon "" w
    · rw [GetOSDs_world]
      exact route_request_routes env _ mon "" w
    · rw [GetOSD_world]
      exact route_request_routes env _ mon "" w
    · rw [GetPGSummary_world]
      exact route_request_routes env _ mon "" w
  · intro mon clusterId ctxt
    rw [GetPGCount_world]
    exact route_request_routes env _ mon "" w
  · intro mon clusterId cmd
    exact ExecCmd_routes env mon clusterId cmd w

/-- Scenario: `UpdatePool` for pool 7 of cluster `c1` runs to completion on the catalog of
the specification.  The catalog is unchanged afterwards, and binding the entry again for pool
9 of cluster `c2` gives `cluster/c2/pool/9`, built from the unbound pattern. -/
theorem catalog_unchanged_by_operations_witness :
    (afterPolls (scenarioEnv happyTransport) "mon-1" ⟨"r-1"⟩ 2
        ⟨specRoutes, [.HttpPatch "mon-1"
            "http://mon-1:8002/api/v2/cluster/00000000-0000-0000-0000-0000000000aa/pool/7"
          "application/json" "body"]⟩).CEPH_API_ROUTES = specRoutes ∧
    (boundRoute
        (afterPolls (scenarioEnv happyTransport) "mon-1" ⟨"r-1"⟩ 2
          ⟨specRoutes, [.HttpPatch "mon-1"
              "http://mon-1:8002/api/v2/cluster/00000000-0000-0000-0000-0000000000aa/pool/7"
            "application/json" "body"]⟩)
        "UpdatePool" [("cluster-fsid", "c2"), ("pool-id", "9")]).Pattern = "cluster/c2/pool/9" :=
  have h := (catalog_unchanged_by_operations (scenarioEnv happyTransport) scenarioWorld).1
    3 "mon-1" scenarioClusterId 7 .null (true, none)
    (afterPolls (scenarioEnv happyTransport) "mon-1" ⟨"r-1"⟩ 2
      ⟨specRoutes, [.HttpPatch "mon-1"
          "http://mon-1:8002/api/v2/cluster/00000000-0000-0000-0000-0000000000aa/pool/7"
        "application/json" "body"]⟩)
    rfl
  ⟨h.1, (h.2.1 [("cluster-fsid", "c2"), ("pool-id", "9")]).trans (by decide)⟩

/-! ## The placement-group aggregator -/

theorem GetPgStatusBasedCount_ok_iff (env : Env) (status : String) (clusterId : UUID)
    (pgMap : List (String × GoValue)) :
    (GetPgStatusBasedCount env status clusterId pgMap).2 = none ↔
      ∃ entry, asMap (mapIndex pgMap status) = some entry ∧
        ∃ count, asFloat64 (mapIndex entry "count") = some count := by
  unfold GetPgStatusBasedCount
  cases h1 : asMap (mapIndex pgMap status) with
  | none => simp
  | some entry =>
    cases h2 : asFloat64 (mapIndex entry "count") with
    | none => simp [h2]
    | some count => simp [h2]

/-- C5: when the response of the PG-count endpoint decodes to a document in which `pg` is
absent or not an object, or in which one of the severities `CRITICAL`, `WARN`, `OK` is
missing, is not an object, or has no numeric `count`, `GetPGCount` returns a nil map with a
non-nil error; on every other decoded document it returns a map with a nil error.  So a map
is returned only when all three counts were read. -/
theorem GetPGCount_incomplete_document (env : Env) (mon : String) (clusterId : UUID)
    (ctxt : String) (w w1 : World) (resp : Response) (body : String)
    (doc : List (String × GoValue))
    (hreq : route_request env (boundRoute w "GetPGCount" [("cluster-fsid", clusterId.String)])
      mon "" w = (.ok resp, w1))
    (hbody : resp.Body = .ok body) (hdoc : env.unmarshalDocument body = .ok doc) :
    (¬ pgDocumentComplete env doc →
      ∃ msg, GetPGCount env mon clusterId ctxt w = ((none, some msg), w1)) ∧
    (pgDocumentComplete env doc →
      ∃ counts, GetPGCount env mon clusterId ctxt w = ((some counts, none), w1)) := by
  have hb : boundRoute w "GetPGCount" [("cluster-fsid", clusterId.String)] =
      { routeAt w.CEPH_API_ROUTES "GetPGCount" with
        Pattern := stringsReplaceOnce (routeAt w.CEPH_API_ROUTES "GetPGCount").Pattern
          "{cluster-fsid}" clusterId.String } := rfl
  rw [hb] at hreq
  simp only [GetPGCount, hreq, hbody, hdoc, pgDocumentComplete]
  cases hpg : asMap (mapIndex doc "pg") with
  | none =>
    constructor
    · intro _
      exact ⟨_, rfl⟩
    · rintro ⟨pgMap, h, _⟩
      cases h
  | some pgMap =>
    simp only [Option.some.injEq, exists_eq_left', List.mem_cons, List.mem_singleton,
      List.not_mem_nil, or_false, forall_eq_or_imp, forall_eq]
    simp only [← GetPgStatusBasedCount_ok_iff env _ clusterId pgMap]
    cases hc : (GetPgStatusBasedCount env env.CRITICAL clusterId pgMap).2 with
    | some e => simp
    | none =>
      cases hw : (GetPgStatusBasedCount env env.WARN clusterId pgMap).2 with
      | some e => simp
      | none =>
        cases ho : (GetPgStatusBasedCount env env.OK clusterId pgMap).2 with
        | some e => simp
        | none => simp

/-- Scenario 3 of the specification: the server answers
`{"pg":{"critical":{"count":2},"warn":{"count":1}}}`, without `ok`; `GetPGCount` returns a
nil map and an error. -/
theorem GetPGCount_incomplete_document_witness :
    ∃ msg, GetPGCount (scenarioEnv pgTransport) "mon-1" scenarioClusterId "ctx" scenarioWorld =
      ((none, some msg),
        ⟨specRoutes,
          [.HttpGet
              "http://mon-1:8002/api/v2/cluster/00000000-0000-0000-0000-0000000000aa/sync_object/pg_summary"]⟩)
              :=
  (GetPGCount_incomplete_document (scenarioEnv pgTransport) "mon-1" scenarioClusterId "ctx"
      scenarioWorld
      ⟨specRoutes, [.HttpGet
          "http://mon-1:8002/api/v2/cluster/00000000-0000-0000-0000-0000000000aa/sync_object/pg_summary"]⟩
      ⟨200, .ok pgBodyMissingOk⟩ pgBodyMissingOk pgDocMissingOk rfl rfl rfl).1
    (by
      rintro ⟨pgMap, hpg, hall⟩
      obtain ⟨entry, hentry, _⟩ := hall "ok" (by simp [scenarioEnv])
      simp only [pgDocMissingOk, mapIndex, List.lookup, asMap] at hpg
      simp only [beq_self_eq_true, Option.getD_some, Option.some.injEq] at hpg
      subst hpg
      have hnone : asMap (mapIndex
          [("critical", GoValue.map [("count", GoValue.float64 ⟨0x4000000000000000⟩)]),
            ("warn", GoValue.map [("count", GoValue.float64 ⟨0x3FF0000000000000⟩)])]
          "ok") = none := rfl
      rw [hnone] at hentry
      cases hentry)

/-! ## Read operations and the HTTP status -/

theorem doPrintf_no_percent :
    ∀ (s : List Char) (fuel : Nat), s.length < fuel → '%' ∉ s → doPrintf fuel s = s := by
  intro s
  induction s with
  | nil =>
    intro fuel hf _
    cases fuel with
    | zero => exact absurd hf (Nat.not_lt_zero _)
    | succ n => rfl
  | cons c cs ih =>
    intro fuel hf hs
    cases fuel with
    | zero => exact absurd hf (Nat.not_lt_zero _)
    | succ n =>
      have hc : c ≠ '%' := fun h => hs (by simp [h])
      have hcs : '%' ∉ cs := fun h => hs (List.mem_cons_of_mem c h)
      simp only [doPrintf, hc, ne_eq, not_false_eq_true, if_true]
      rw [ih n (by simpa using hf) hcs]

/-- An error text without `%` comes back unchanged from `fmt.Errorf`. -/
theorem fmtErrorf_no_percent (s : String) (h : '%' ∉ s.data) : fmtErrorf s = s := by
  unfold fmtErrorf
  rw [doPrintf_no_percent s.data (s.length + 1) (Nat.lt_succ_self _) h]

/-- The three outcomes of `ExecCmd` once its request was answered: a status other than 200
is an error; a decoded response with `status != 0` is an error whose message is the
response's `error` text put through the formatter; `status == 0` gives `(true, out, nil)`. -/
theorem ExecCmd_result (env : Env) (mon : String) (clusterId : UUID) (cmd : String)
    (w w1 : World) (buf : String) (resp : Response)
    (hm : env.jsonMarshal (commandBody (stringsSplitSpace cmd)) = .ok buf)
    (hreq : route_request env (boundRoute w "ExecCmd" [("cluster-fsid", clusterId.String)])
      mon buf w = (.ok resp, w1)) :
    (resp.StatusCode ≠ 200 →
      ∃ msg, ExecCmd env mon clusterId cmd w = ((false, "", some msg), w1)) ∧
    (∀ body r, resp.StatusCode = 200 → resp.Body = .ok body →
      env.unmarshalCommandResponse body = .ok r →
      (r.Status ≠ 0 →
        ExecCmd env mon clusterId cmd w = ((false, "", some (fmtErrorf r.Error)), w1)) ∧
      (r.Status ≠ 0 → '%' ∉ r.Error.data →
        ExecCmd env mon clusterId cmd w = ((false, "", some r.Error), w1)) ∧
      (r.Status = 0 → ExecCmd env mon clusterId cmd w = ((true, r.Out, none), w1))) := by
  have hb : boundRoute w "ExecCmd" [("cluster-fsid", clusterId.String)] =
      { routeAt w.CEPH_API_ROUTES "ExecCmd" with
        Pattern := stringsReplaceOnce (routeAt w.CEPH_API_ROUTES "ExecCmd").Pattern
          "{cluster-fsid}" clusterId.String } := rfl
  rw [hb] at hreq
  have hm2 : env.jsonMarshal
      (GoValue.map [("command", .slice ((stringsSplitSpace cmd).map .string))]) = .ok buf := hm
  constructor
  · intro hs
    simp only [ExecCmd, hm2, hreq, hs, ne_eq, not_false_eq_true, if_true]
    exact ⟨_, rfl⟩
  · intro body r hs hbody hdec
    refine ⟨?_, ?_, ?_⟩
    · intro hr
      simp [ExecCmd, hm2, hreq, hs, hbody, hdec, hr]
    · intro hr hp
      simp [ExecCmd, hm2, hreq, hs, hbody, hdec, hr, fmtErrorf_no_percent r.Error hp]
    · intro hr
      simp [ExecCmd, hm2, hreq, hs, hbody, hdec, hr]

/-- C7, evaluated where the code departs from it: the server answers 200 with `status` 22
and `error` equal to `quota 100%`.  `ExecCmd` returns `(false, "", e)`, but the message of
`e` is `quota 100%!(NOVERB)`, not the response's error text, because that text is used as
the format of `fmt.Errorf`.  On the text `invalid argument` of scenario 5, which has no `%`,
the message is the text itself. -/
theorem ExecCmd_error_text_is_formatted :
    (ExecCmd (scenarioEnv percentTransport) "mon-1" scenarioClusterId "osd pool ls" scenarioWorld).1
      = (false, "", some "quota 100%!(NOVERB)") ∧
    (ExecCmd (scenarioEnv commandTransport) "mon-1" scenarioClusterId "osd pool ls" scenarioWorld).1
      = (false, "", some "invalid argument") := by
  constructor <;> decide

end cephapi

namespace cephapi

/-! ## The command executor: tokens -/

theorem splitAtChar_cons_exists (sep : Char) (s : List Char) :
    ∃ t ts, splitAtChar sep s = t :: ts := by
  induction s with
  | nil => exact ⟨[], [], rfl⟩
  | cons c cs ih =>
    obtain ⟨t, ts, h⟩ := ih
    by_cases hc : c = sep
    · exact ⟨[], splitAtChar sep cs, by simp [splitAtChar, hc]⟩
    · exact ⟨c :: t, ts, by simp [splitAtChar, hc, h]⟩

theorem splitAtChar_sep (sep : Char) (cs : List Char) :
    splitAtChar sep (sep :: cs) = [] :: splitAtChar sep cs := by
  simp [splitAtChar]

theorem splitAtChar_other (sep c : Char) (cs t : List Char) (ts : List (List Char))
    (hc : c ≠ sep) (h : splitAtChar sep cs = t :: ts) :
    splitAtChar sep (c :: cs) = (c :: t) :: ts := by
  simp [splitAtChar, hc, h]

theorem splitAtChar_no_sep (sep : Char) :
    ∀ (s : List Char) (t : List Char), t ∈ splitAtChar sep s → sep ∉ t := by
  intro s
  induction s with
  | nil =>
    intro t ht
    simp only [splitAtChar, List.mem_singleton] at ht
    subst ht
    exact List.not_mem_nil _
  | cons c cs ih =>
    intro t ht
    by_cases hc : c = sep
    · subst hc
      rw [splitAtChar_sep] at ht
      rcases List.mem_cons.mp ht with h | h
      · subst h
        exact List.not_mem_nil _
      · exact ih t h
    · obtain ⟨t0, ts, h0⟩ := splitAtChar_cons_exists sep cs
      rw [splitAtChar_other sep c cs t0 ts hc h0] at ht
      rcases List.mem_cons.mp ht with h | h
      · subst h
        intro hmem
        rcases List.mem_cons.mp hmem with h1 | h1
        · exact hc h1.symm
        · exact ih t0 (by rw [h0]; exact List.mem_cons_self _ _) h1
      · exact ih t (by rw [h0]; exact List.mem_cons_of_mem _ h)

theorem joinChars_cons_cons (sep : Char) (t t2 : List Char) (ts : List (List Char)) :
    joinChars sep (t :: t2 :: ts) = t ++ sep :: joinChars sep (t2 :: ts) := rfl

theorem joinChars_splitAtChar (sep : Char) :
    ∀ s : List Char, joinChars sep (splitAtChar sep s) = s := by
  intro s
  induction s with
  | nil => rfl
  | cons c cs ih =>
    obtain ⟨t0, ts, h0⟩ := splitAtChar_cons_exists sep cs
    by_cases hc : c = sep
    · subst hc
      rw [splitAtChar_sep, h0, joinChars_cons_cons, ← h0, ih]
      rfl
    · rw [splitAtChar_other sep c cs t0 ts hc h0]
      rw [h0] at ih
      cases ts with
      | nil =>
        simp only [joinChars] at ih ⊢
        rw [ih]
      | cons t2 ts2 =>
        rw [joinChars_cons_cons] at ih ⊢
        rw [← ih]
        rfl

theorem whitespaceRuns_eq_filter :
    ∀ s : List Char, (∀ c ∈ s, isAsciiSpace c = true → c = ' ') →
      whitespaceRuns s = (splitAtChar ' ' s).filter (fun t => !t.isEmpty) := by
  intro s
  induction s with
  | nil => intro _; rfl
  | cons c cs ih =>
    intro H
    have ih1 := ih (fun d hd => H d (List.mem_cons_of_mem c hd))
    by_cases hc : c = ' '
    · subst hc
      rw [splitAtChar_sep]
      simp only [whitespaceRuns, isAsciiSpace, decide_True, Bool.true_or, if_true]
      rw [ih1]
      rfl
    · have hws : isAsciiSpace c = false := by
        cases h : isAsciiSpace c with
        | false => rfl
        | true => exact absurd (H c (List.mem_cons_self _ _) h) hc
      cases cs with
      | nil =>
        simp [whitespaceRuns, hws, splitAtChar, hc]
      | cons d ds =>
        by_cases hd : d = ' '
        · subst hd
          rw [splitAtChar_sep] at ih1
          rw [splitAtChar_other ' ' c (' ' :: ds) [] (splitAtChar ' ' ds) hc
            (splitAtChar_sep ' ' ds)]
          have hsp : isAsciiSpace ' ' = true := by decide
          simp only [whitespaceRuns, hws, hsp, if_true, Bool.false_eq_true, if_false]
          simp only [whitespaceRuns, hsp, if_true] at ih1
          rw [ih1]
          rfl
        · have hwd : isAsciiSpace d = false := by
            cases h : isAsciiSpace d with
            | false => rfl
            | true =>
              exact absurd (H d (List.mem_cons_of_mem c (List.mem_cons_self _ _)) h) hd
          obtain ⟨t0, ts, h0⟩ := splitAtChar_cons_exists ' ' ds
          have hsd := splitAtChar_other ' ' d ds t0 ts hd h0
          rw [hsd] at ih1
          rw [splitAtChar_other ' ' c (d :: ds) (d :: t0) ts hc hsd]
          have hrun : whitespaceRuns (c :: d :: ds) =
              match whitespaceRuns (d :: ds) with
              | t :: ts => (c :: t) :: ts
              | [] => [[c]] := by
            simp only [whitespaceRuns, hws, hwd, Bool.false_eq_true, if_false]
          rw [hrun, ih1]
          rfl

theorem stringsSplitSpace_filter (cmd : String) :
    (stringsSplitSpace cmd).filter (fun t => t ≠ "") =
      ((splitAtChar ' ' cmd.data).filter (fun t => !t.isEmpty)).map String.mk := by
  unfold stringsSplitSpace
  rw [List.filter_map]
  congr 1
  apply List.filter_congr
  intro t _
  cases t with
  | nil => rfl
  | cons c cs =>
    have hne : String.mk (c :: cs) ≠ "" := by
      intro h
      have h2 := congrArg String.data h
      simp at h2
    simp [hne]

/-- C6 as the code has it: the token list `ExecCmd` marshals under `"command"` is
`strings.Split(cmd, " ")`, the pieces of `cmd` between single space characters.  The request
that goes out carries the marshalled map; no token contains a space; joining the tokens with
single spaces gives `cmd` back, so neighbouring, leading and trailing spaces give empty
tokens and tabs or newlines do not separate.  When `cmd` has no ASCII whitespace other than
spaces, dropping the empty tokens gives the whitespace split of the specification. -/
theorem ExecCmd_command_tokens (env : Env) (mon : String) (clusterId : UUID) (cmd : String)
    (w : World) :
    (∀ buf, env.jsonMarshal (commandBody (stringsSplitSpace cmd)) = .ok buf →
      (ExecCmd env mon clusterId cmd w).2 =
        (route_request env (boundRoute w "ExecCmd" [("cluster-fsid", clusterId.String)])
          mon buf w).2) ∧
    stringsJoinSpace (stringsSplitSpace cmd) = cmd ∧
    (∀ t ∈ stringsSplitSpace cmd, ' ' ∉ t.data) ∧
    ((∀ c ∈ cmd.data, isAsciiSpace c = true → c = ' ') →
      whitespaceTokens cmd = (stringsSplitSpace cmd).filter (fun t => t ≠ "")) := by
  refine ⟨?_, ?_, ?_, ?_⟩
  · intro buf hm
    have hb : boundRoute w "ExecCmd" [("cluster-fsid", clusterId.String)] =
        { routeAt w.CEPH_API_ROUTES "ExecCmd" with
          Pattern := stringsReplaceOnce (routeAt w.CEPH_API_ROUTES "ExecCmd").Pattern
            "{cluster-fsid}" clusterId.String } := rfl
    have hm2 : env.jsonMarshal
        (GoValue.map [("command", .slice ((stringsSplitSpace cmd).map .string))]) = .ok buf := hm
    rw [hb]
    simp only [ExecCmd, hm2]
    rcases route_request env _ mon buf w with ⟨q, w1⟩
    cases q with
    | error e => rfl
    | ok resp =>
      simp only
      split
      · rfl
      · split
        · rfl
        · split
          · rfl
          · split <;> rfl
  · simp only [stringsJoinSpace, stringsSplitSpace, List.map_map]
    have hid : (String.data ∘ String.mk) = id := by
      funext t
      rfl
    rw [hid, List.map_id, joinChars_splitAtChar]
  · intro t ht
    simp only [stringsSplitSpace, List.mem_map] at ht
    obtain ⟨u, hu, rfl⟩ := ht
    exact splitAtChar_no_sep ' ' cmd.data u hu
  · intro H
    rw [stringsSplitSpace_filter, whitespaceTokens, whitespaceRuns_eq_filter cmd.data H]

/-- The command `osd pool ls` of scenario 5 has single spaces only: its tokens are
`osd`, `pool`, `ls`, and they are the whitespace split. -/
theorem ExecCmd_command_tokens_witness :
    whitespaceTokens "osd pool ls" = (stringsSplitSpace "osd pool ls").filter (fun t => t ≠ "") ∧
    stringsSplitSpace "osd pool ls" = ["osd", "pool", "ls"] :=
  ⟨(ExecCmd_command_tokens commandEnv "mon-1" scenarioClusterId "osd pool ls" scenarioWorld).2.2.2
      (by decide),
    by decide⟩

/-- The command `osd  pool ls` with two spaces after `osd`, and the command `osd\tpool`
with a tab: `ExecCmd` sends an empty token in the first case and a single unsplit token in
the second, where the whitespace split has `osd`, `pool`, `ls` and `osd`, `pool`. -/
theorem ExecCmd_tokens_counterexample :
    (ExecCmd commandEnv "mon-1" scenarioClusterId "osd  pool ls" scenarioWorld).2.calls =
      [.HttpPost "mon-1" "http://mon-1:8002/api/v2/cluster/00000000-0000-0000-0000-0000000000aa/cli"
          "application/json"
        "\x7b\"command\":[\"osd\",\"\",\"pool\",\"ls\"]\x7d"] ∧
    stringsSplitSpace "osd  pool ls" = ["osd", "", "pool", "ls"] ∧
    whitespaceTokens "osd  pool ls" = ["osd", "pool", "ls"] ∧
    stringsSplitSpace "osd\tpool" = ["osd\tpool"] ∧
    whitespaceTokens "osd\tpool" = ["osd", "pool"] := by
  refine ⟨?_, ?_, ?_, ?_, ?_⟩ <;> decide

end cephapi

namespace cephapi

/-! ## Binding route patterns -/

theorem renderTemplate_text (s : String) (rest : List Segment) :
    (renderTemplate (.text s :: rest)).data = s.data ++ (renderTemplate rest).data := by
  simp [renderTemplate]

theorem renderTemplate_placeholder (n : String) (rest : List Segment) :
    (renderTemplate (.placeholder n :: rest)).data =
      '{' :: (n.data ++ '}' :: (renderTemplate rest).data) := by
  have h1 : ("\x7b" : String).data = ['{'] := rfl
  have h2 : ("\x7d" : String).data = ['}'] := rfl
  simp [renderTemplate, h1, h2]

theorem placeholder_data (n : String) :
    ("\x7b" ++ n ++ "\x7d" : String).data = '{' :: (n.data ++ ['}']) := by
  have h1 : ("\x7b" : String).data = ['{'] := rfl
  have h2 : ("\x7d" : String).data = ['}'] := rfl
  simp [h1, h2]

/-- Text without an opening brace is copied while looking for `{name}`. -/
theorem replaceFirst_skip (o new : List Char) :
    ∀ (s r : List Char), '{' ∉ s →
      replaceFirst ('{' :: o) new (s ++ r) = s ++ replaceFirst ('{' :: o) new r := by
  intro s
  induction s with
  | nil => intro r _; rfl
  | cons c cs ih =>
    intro r hs
    have hc : c ≠ '{' := fun h => hs (by simp [h])
    have hcs : '{' ∉ cs := fun h => hs (List.mem_cons_of_mem c h)
    have hp : ('{' :: o).isPrefixOf (c :: (cs ++ r)) = false := by
      simp [List.isPrefixOf, Ne.symm hc]
    rw [List.cons_append, replaceFirst, hp]
    simp only [Bool.false_eq_true, if_false]
    rw [ih r hcs, List.cons_append]

theorem isPrefixOf_name (r : List Char) :
    ∀ (n m : List Char), '}' ∉ n → '}' ∉ m →
      ((n ++ ['}']).isPrefixOf (m ++ '}' :: r) = true ↔ n = m) := by
  intro n
  induction n with
  | nil =>
    intro m _ hm
    cases m with
    | nil => simp [List.isPrefixOf]
    | cons d ds =>
      have hd : d ≠ '}' := fun h => hm (by simp [h])
      simp [List.isPrefixOf, Ne.symm hd]
  | cons c cs ih =>
    intro m hn hm
    have hc : c ≠ '}' := fun h => hn (by simp [h])
    have hcs : '}' ∉ cs := fun h => hn (List.mem_cons_of_mem c h)
    cases m with
    | nil => simp [List.isPrefixOf, hc]
    | cons d ds =>
      have hds : '}' ∉ ds := fun h => hm (List.mem_cons_of_mem d h)
      have := ih ds hcs hds
      rw [List.cons_append, List.cons_append, List.isPrefixOf]
      simp only [Bool.and_eq_true, beq_iff_eq, this, List.cons.injEq]


/-- Binding one name: on a well-formed template `strings.Replace` rewrites exactly the
first placeholder of that name, or nothing when there is none. -/
theorem replaceFirst_render (name value : String) (hname : '}' ∉ name.data) :
    ∀ t : List Segment, wellFormedTemplate t →
      replaceFirst ('{' :: (name.data ++ ['}'])) value.data (renderTemplate t).data =
        (renderTemplate (substituteFirst name value t)).data := by
  intro t
  induction t with
  | nil => intro _; rfl
  | cons seg rest ih =>
    intro hwf
    cases seg with
    | text s =>
      obtain ⟨hs, hrest⟩ := hwf
      rw [renderTemplate_text, replaceFirst_skip _ _ _ _ hs.1, ih hrest]
      simp only [substituteFirst]
      rw [renderTemplate_text]
    | placeholder n =>
      obtain ⟨hn, hrest⟩ := hwf
      rw [renderTemplate_placeholder]
      by_cases hnn : n = name
      · subst hnn
        have hp : ('{' :: (n.data ++ ['}'])).isPrefixOf
            ('{' :: (n.data ++ '}' :: (renderTemplate rest).data)) = true := by
          rw [List.isPrefixOf]
          simp only [beq_self_eq_true, Bool.true_and]
          exact (isPrefixOf_name _ n.data n.data hname hname).mpr rfl
        rw [replaceFirst, hp]
        simp only [substituteFirst, if_true]
        rw [renderTemplate_text]
        congr 1
        have hlen : ('{' :: (n.data ++ ['}'])).length = (n.data ++ ['}']).length + 1 := rfl
        rw [hlen, List.drop_succ_cons]
        have happ : n.data ++ '}' :: (renderTemplate rest).data =
            (n.data ++ ['}']) ++ (renderTemplate rest).data := by simp
        rw [happ, List.drop_left]
      · have hp : ('{' :: (name.data ++ ['}'])).isPrefixOf
            ('{' :: (n.data ++ '}' :: (renderTemplate rest).data)) = false := by
          rw [List.isPrefixOf]
          simp only [beq_self_eq_true, Bool.true_and]
          cases h : (name.data ++ ['}']).isPrefixOf (n.data ++ '}' :: (renderTemplate rest).data)
          · rfl
          · have := (isPrefixOf_name _ name.data n.data hname hn.2).mp h
            exact absurd (String.ext this).symm hnn
        rw [replaceFirst, hp]
        simp only [Bool.false_eq_true, if_false, substituteFirst, hnn]
        rw [renderTemplate_placeholder]
        congr 1
        have happ : n.data ++ '}' :: (renderTemplate rest).data =
            (n.data ++ ['}']) ++ (renderTemplate rest).data := by simp
        have hno : '{' ∉ n.data ++ ['}'] := by
          intro h
          rcases List.mem_append.mp h with h1 | h1
          · exact hn.1 h1
          · simp at h1
        rw [happ, replaceFirst_skip _ _ _ _ hno, ih hrest]
        simp

theorem stringsReplaceOnce_render (name value : String) (hname : '}' ∉ name.data)
    (t : List Segment) (hwf : wellFormedTemplate t) :
    stringsReplaceOnce (renderTemplate t) ("\x7b" ++ name ++ "\x7d") value =
      renderTemplate (substituteFirst name value t) := by
  unfold stringsReplaceOnce
  rw [placeholder_data, replaceFirst_render name value hname t hwf]


theorem substituteFirst_wellFormed (name value : String) (hvalue : braceFree value) :
    ∀ t : List Segment, wellFormedTemplate t →
      wellFormedTemplate (substituteFirst name value t) := by
  intro t
  induction t with
  | nil => intro h; exact h
  | cons seg rest ih =>
    intro hwf
    cases seg with
    | text s => exact ⟨hwf.1, ih hwf.2⟩
    | placeholder n =>
      simp only [substituteFirst]
      split
      · exact ⟨hvalue, hwf.2⟩
      · exact ⟨hwf.1, ih hwf.2⟩

theorem substituteFirst_names (name value : String) :
    ∀ t : List Segment,
      templateNames (substituteFirst name value t) = (templateNames t).erase name := by
  intro t
  induction t with
  | nil => rfl
  | cons seg rest ih =>
    cases seg with
    | text s => simpa [substituteFirst, templateNames] using ih
    | placeholder n =>
      simp only [substituteFirst, templateNames, List.erase_cons]
      by_cases h : n = name
      · simp [h, templateNames]
      · simp [h, templateNames, ih]

theorem render_braceFree :
    ∀ t : List Segment, wellFormedTemplate t → templateNames t = [] →
      braceFree (renderTemplate t) := by
  intro t
  induction t with
  | nil => intro _ _; exact ⟨List.not_mem_nil _, List.not_mem_nil _⟩
  | cons seg rest ih =>
    intro hwf hn
    cases seg with
    | text s =>
      obtain ⟨hs, hrest⟩ := hwf
      have hr := ih hrest hn
      unfold braceFree at hs hr ⊢
      rw [renderTemplate_text]
      simp only [List.mem_append, not_or]
      exact ⟨⟨hs.1, hr.1⟩, ⟨hs.2, hr.2⟩⟩
    | placeholder n => simp [templateNames] at hn

theorem hasBraceGroup_of_no_open :
    ∀ s : List Char, '{' ∉ s → hasBraceGroup s = false := by
  intro s
  induction s with
  | nil => intro _; rfl
  | cons c cs ih =>
    intro h
    have hc : c ≠ '{' := fun e => h (by simp [e])
    have hcs : '{' ∉ cs := fun e => h (List.mem_cons_of_mem c e)
    simp [hasBraceGroup, hc, ih hcs]

theorem scanPlaceholders_skip :
    ∀ (s r : List Char), '{' ∉ s →
      scanPlaceholders none (s ++ r) = scanPlaceholders none r := by
  intro s
  induction s with
  | nil => intro r _; rfl
  | cons c cs ih =>
    intro r h
    have hc : c ≠ '{' := fun e => h (by simp [e])
    have hcs : '{' ∉ cs := fun e => h (List.mem_cons_of_mem c e)
    rw [List.cons_append, scanPlaceholders]
    simp only [hc, if_false]
    exact ih r hcs

theorem scanPlaceholders_name :
    ∀ (n acc r : List Char), '{' ∉ n → '}' ∉ n →
      scanPlaceholders (some acc) (n ++ '}' :: r) =
        String.mk (acc.reverse ++ n) :: scanPlaceholders none r := by
  intro n
  induction n with
  | nil =>
    intro acc r _ _
    simp [scanPlaceholders]
  | cons c cs ih =>
    intro acc r ho hc
    have h1 : c ≠ '{' := fun e => ho (by simp [e])
    have h2 : c ≠ '}' := fun e => hc (by simp [e])
    have ho2 : '{' ∉ cs := fun e => ho (List.mem_cons_of_mem c e)
    have hc2 : '}' ∉ cs := fun e => hc (List.mem_cons_of_mem c e)
    rw [List.cons_append, scanPlaceholders]
    simp only [h1, h2, if_false]
    rw [ih (c :: acc) r ho2 hc2]
    simp

/-- On a well-formed template the scanner finds exactly the template's placeholders. -/
theorem placeholderNames_render :
    ∀ t : List Segment, wellFormedTemplate t →
      placeholderNames (renderTemplate t) = templateNames t := by
  intro t
  induction t with
  | nil => intro _; rfl
  | cons seg rest ih =>
    intro hwf
    cases seg with
    | text s =>
      obtain ⟨hs, hrest⟩ := hwf
      have := ih hrest
      unfold placeholderNames at this ⊢
      rw [renderTemplate_text, scanPlaceholders_skip _ _ hs.1]
      exact this
    | placeholder n =>
      obtain ⟨hn, hrest⟩ := hwf
      have := ih hrest
      unfold placeholderNames at this ⊢
      rw [renderTemplate_placeholder, scanPlaceholders]
      simp only [if_true]
      rw [scanPlaceholders_name _ _ _ hn.1 hn.2, this]
      simp [templateNames]


theorem templateNames_braceFree :
    ∀ t : List Segment, wellFormedTemplate t → ∀ m ∈ templateNames t, braceFree m := by
  intro t
  induction t with
  | nil => intro _ m hm; exact absurd hm (List.not_mem_nil _)
  | cons seg rest ih =>
    intro hwf m hm
    cases seg with
    | text s => exact ih hwf.2 m hm
    | placeholder n =>
      rcases List.mem_cons.mp hm with h | h
      · rw [h]; exact hwf.1
      · exact ih hwf.2 m h

/-- Splitting a text at a closing brace when its first part holds none. -/
theorem split_at_closing (a R p r : List Char) (ha : '}' ∉ a)
    (h : a ++ R = p ++ '}' :: r) : ∃ p2, p = a ++ p2 ∧ R = p2 ++ '}' :: r := by
  rcases List.append_eq_append_iff.mp h with ⟨a2, h1, h2⟩ | ⟨c2, h1, h2⟩
  · exact ⟨a2, h1, h2⟩
  · cases c2 with
    | nil =>
      refine ⟨[], ?_, ?_⟩
      · simpa using h1.symm
      · simpa using h2.symm
    | cons d ds =>
      simp only [List.cons_append, List.cons.injEq] at h2
      exact absurd (by rw [h1, ← h2.1]; simp) ha

/-- In a well-formed pattern a closing brace ends a placeholder: what follows it is again
the rendering of a well-formed template, with some of the placeholders. -/
theorem render_after_closing :
    ∀ t : List Segment, wellFormedTemplate t → ∀ p r : List Char,
      (renderTemplate t).data = p ++ '}' :: r →
      ∃ t2, r = (renderTemplate t2).data ∧ wellFormedTemplate t2 ∧
        (templateNames t2).Sublist (templateNames t) := by
  intro t
  induction t with
  | nil =>
    intro _ p r h
    have : ([] : List Char) = p ++ '}' :: r := h
    simp at this
  | cons seg rest ih =>
    intro hwf p r h
    cases seg with
    | text s =>
      obtain ⟨hs, hrest⟩ := hwf
      rw [renderTemplate_text] at h
      obtain ⟨p2, _, h2⟩ := split_at_closing _ _ _ _ hs.2 h
      obtain ⟨t2, e1, e2, e3⟩ := ih hrest p2 r h2
      exact ⟨t2, e1, e2, e3⟩
    | placeholder n =>
      obtain ⟨hn, hrest⟩ := hwf
      rw [renderTemplate_placeholder] at h
      cases p with
      | nil =>
        simp only [List.nil_append, List.cons.injEq] at h
        exact absurd h.1 (by decide)
      | cons c p1 =>
        simp only [List.cons_append, List.cons.injEq] at h
        obtain ⟨p2, _, h2⟩ := split_at_closing _ _ _ _ hn.2 h.2
        cases p2 with
        | nil =>
          simp only [List.nil_append, List.cons.injEq, true_and] at h2
          exact ⟨rest, h2.symm, hrest, List.Sublist.cons _ (List.Sublist.refl _)⟩
        | cons d p3 =>
          simp only [List.cons_append, List.cons.injEq] at h2
          obtain ⟨t2, e1, e2, e3⟩ := ih hrest p3 r h2.2
          exact ⟨t2, e1, e2, List.Sublist.cons _ e3⟩

/-- One `strings.Replace` for an arbitrary name on a well-formed pattern: the result is
again a well-formed pattern and no placeholder is added. -/
theorem replaceFirst_render_any (n : List Char) (value : String) (hvalue : braceFree value) :
    ∀ t : List Segment, wellFormedTemplate t →
      ∃ t2, replaceFirst ('{' :: (n ++ ['}'])) value.data (renderTemplate t).data =
          (renderTemplate t2).data ∧
        wellFormedTemplate t2 ∧ (templateNames t2).Sublist (templateNames t) := by
  intro t
  induction t with
  | nil => intro _; exact ⟨[], rfl, trivial, List.Sublist.refl _⟩
  | cons seg rest ih =>
    intro hwf
    cases seg with
    | text s =>
      obtain ⟨hs, hrest⟩ := hwf
      obtain ⟨t1, e1, e2, e3⟩ := ih hrest
      refine ⟨.text s :: t1, ?_, ⟨hs, e2⟩, e3⟩
      rw [renderTemplate_text, replaceFirst_skip _ _ _ _ hs.1, e1, renderTemplate_text]
    | placeholder m =>
      obtain ⟨hm, hrest⟩ := hwf
      rw [renderTemplate_placeholder]
      cases hp : ('{' :: (n ++ ['}'])).isPrefixOf
          ('{' :: (m.data ++ '}' :: (renderTemplate rest).data)) with
      | true =>
        obtain ⟨r, hr⟩ := List.isPrefixOf_iff_prefix.mp hp
        have hr2 : (renderTemplate (.placeholder m :: rest)).data = ('{' :: n) ++ '}' :: r := by
          rw [renderTemplate_placeholder, ← hr]
          simp
        obtain ⟨t2, e1, e2, e3⟩ :=
          render_after_closing (.placeholder m :: rest) ⟨hm, hrest⟩ ('{' :: n) r hr2
        refine ⟨.text value :: t2, ?_, ⟨hvalue, e2⟩, e3⟩
        rw [replaceFirst, hp]
        simp only [if_true]
        rw [renderTemplate_text, ← e1, ← hr, List.drop_left]
      | false =>
        obtain ⟨t1, e1, e2, e3⟩ := ih hrest
        refine ⟨.placeholder m :: t1, ?_, ⟨hm, e2⟩, List.Sublist.cons₂ _ e3⟩
        rw [replaceFirst, hp]
        simp only [Bool.false_eq_true, if_false]
        rw [renderTemplate_placeholder]
        congr 1
        have happ : ∀ R : List Char, m.data ++ '}' :: R = (m.data ++ ['}']) ++ R := by
          intro R; simp
        have hno : '{' ∉ m.data ++ ['}'] := by
          intro h
          rcases List.mem_append.mp h with h1 | h1
          · exact hm.1 h1
          · simp at h1
        rw [happ, replaceFirst_skip _ _ _ _ hno, e1]
        simp


theorem stringsReplaceOnce_render_any (name value : String) (hvalue : braceFree value)
    (t : List Segment) (hwf : wellFormedTemplate t) :
    ∃ t2, stringsReplaceOnce (renderTemplate t) ("\x7b" ++ name ++ "\x7d") value =
        renderTemplate t2 ∧
      wellFormedTemplate t2 ∧ (templateNames t2).Sublist (templateNames t) := by
  obtain ⟨t2, e1, e2, e3⟩ := replaceFirst_render_any name.data value hvalue t hwf
  refine ⟨t2, ?_, e2, e3⟩
  unfold stringsReplaceOnce
  rw [placeholder_data, e1]

/-- The whole binding step on a well-formed template without repeated placeholders: when
the values are brace-free and every placeholder is supplied, no placeholder is left. -/
theorem bindPattern_binds_all :
    ∀ (subst : List (String × String)) (t : List Segment), wellFormedTemplate t →
      (templateNames t).Nodup →
      (∀ kv ∈ subst, braceFree kv.2) →
      (∀ m ∈ templateNames t, m ∈ subst.map Prod.fst) →
      ∃ t2, bindPattern (renderTemplate t) subst = renderTemplate t2 ∧ wellFormedTemplate t2 ∧
        templateNames t2 = [] := by
  intro subst
  induction subst with
  | nil =>
    intro t hwf _ _ hc
    refine ⟨t, rfl, hwf, ?_⟩
    cases hn : templateNames t with
    | nil => rfl
    | cons n ns =>
      exact absurd (hc n (by rw [hn]; exact List.mem_cons_self _ _)) (List.not_mem_nil _)
  | cons kv rest ih =>
    intro t hwf hnd hv hc
    have hkv := hv kv (List.mem_cons_self _ _)
    have hvrest : ∀ x ∈ rest, braceFree x.2 := fun x hx => hv x (List.mem_cons_of_mem _ hx)
    simp only [bindPattern, List.foldl_cons]
    by_cases hbrace : '}' ∈ kv.1.data
    · obtain ⟨t1, e1, e2, e3⟩ := stringsReplaceOnce_render_any kv.1 kv.2 hkv t hwf
      rw [e1]
      apply ih t1 e2 (e3.nodup hnd) hvrest
      intro m hm
      have hmt : m ∈ templateNames t := e3.subset hm
      have := hc m hmt
      simp only [List.map_cons, List.mem_cons] at this
      rcases this with h | h
      · have hfree := templateNames_braceFree t hwf m hmt
        rw [h] at hfree
        exact absurd hbrace hfree.2
      · exact h
    · rw [stringsReplaceOnce_render kv.1 kv.2 hbrace t hwf]
      apply ih _ (substituteFirst_wellFormed kv.1 kv.2 hkv t hwf) _ hvrest
      · intro m hm
        rw [substituteFirst_names] at hm
        have hmem := (hnd.mem_erase_iff).mp hm
        have := hc m hmem.2
        simp only [List.map_cons, List.mem_cons] at this
        rcases this with h | h
        · exact absurd h hmem.1
        · exact h
      · rw [substituteFirst_names]
        exact hnd.erase kv.1

/-- C8 as the code has it: the binding step is a chain of
`strings.Replace(pattern, "{name}", value, 1)` calls, which rewrites one occurrence per name
and copies values as they are.  If the pattern is made of brace-free text and placeholders
with brace-free names, no placeholder occurring twice, and the substitution has brace-free
values and covers every placeholder of the pattern, then the bound pattern holds no brace at
all, hence no brace-delimited part. -/
theorem bindPattern_no_brace_group (t : List Segment) (subst : List (String × String))
    (hwf : wellFormedTemplate t) (hnodup : (templateNames t).Nodup)
    (hvalues : ∀ kv ∈ subst, braceFree kv.2)
    (hcover : covers subst (renderTemplate t)) :
    braceFree (bindPattern (renderTemplate t) subst) ∧
    hasBraceGroup (bindPattern (renderTemplate t) subst).data = false ∧
    (∀ p a x b y, bindPattern p [(a, x), (b, y)] =
      stringsReplaceOnce (stringsReplaceOnce p ("\x7b" ++ a ++ "\x7d") x)
        ("\x7b" ++ b ++ "\x7d") y) := by
  have hc : ∀ n ∈ templateNames t, n ∈ subst.map Prod.fst := by
    intro n hn
    apply hcover
    rw [placeholderNames_render t hwf]
    exact hn
  obtain ⟨t2, h1, h2, h3⟩ := bindPattern_binds_all subst t hwf hnodup hvalues hc
  have hfree : braceFree (bindPattern (renderTemplate t) subst) := by
    rw [h1]
    exact render_braceFree t2 h2 h3
  exact ⟨hfree, hasBraceGroup_of_no_open _ hfree.1, fun _ _ _ _ _ => rfl⟩

/-- The `UpdatePool` pattern of the specification bound to cluster `c1` and pool 7:
two distinct placeholders, brace-free values, and the result `cluster/c1/pool/7` holds no
brace-delimited part. -/
theorem bindPattern_no_brace_group_witness :
    renderTemplate [.text "cluster/", .placeholder "cluster-fsid", .text "/pool/",
        .placeholder "pool-id"] = "cluster/{cluster-fsid}/pool/{pool-id}" ∧
    bindPattern "cluster/{cluster-fsid}/pool/{pool-id}" [("cluster-fsid", "c1"), ("pool-id", "7")]
      = "cluster/c1/pool/7" ∧
    hasBraceGroup
      (bindPattern
        (renderTemplate [.text "cluster/", .placeholder "cluster-fsid", .text "/pool/",
          .placeholder "pool-id"])
        [("cluster-fsid", "c1"), ("pool-id", "7")]).data = false :=
  ⟨by decide, by decide,
    (bindPattern_no_brace_group
      [.text "cluster/", .placeholder "cluster-fsid", .text "/pool/", .placeholder "pool-id"]
      [("cluster-fsid", "c1"), ("pool-id", "7")]
      (by simp [wellFormedTemplate, braceFree])
      (by decide)
      (by simp [braceFree])
      (by unfold covers; decide)).2.1⟩

/-- Three bindings that cover every placeholder and still leave a brace-delimited part: an
OSD id that itself holds braces (as `GetOSD` would be called with the id `{x}`), a pattern
naming `{cluster-fsid}` twice, of which one occurrence is rewritten, and a pattern with
braces around a placeholder. -/
theorem bindPattern_counterexample :
    (covers [("cluster-fsid", "c1"), ("osd-id", "{x}")] "cluster/{cluster-fsid}/osd/{osd-id}" ∧
      bindPattern "cluster/{cluster-fsid}/osd/{osd-id}" [("cluster-fsid", "c1"), ("osd-id", "{x}")]
        = "cluster/c1/osd/{x}" ∧
      hasBraceGroup (bindPattern "cluster/{cluster-fsid}/osd/{osd-id}"
        [("cluster-fsid", "c1"), ("osd-id", "{x}")]).data = true ∧
      (GetOSD (scenarioEnv emptyListTransport) recordDecoders "mon-1" scenarioClusterId "{x}"
          scenarioWorld).2.calls
        = [.HttpGet
            "http://mon-1:8002/api/v2/cluster/00000000-0000-0000-0000-0000000000aa/osd/{x}"]) ∧
    (covers [("cluster-fsid", "c1")] "cluster/{cluster-fsid}/peer/{cluster-fsid}" ∧
      bindPattern "cluster/{cluster-fsid}/peer/{cluster-fsid}" [("cluster-fsid", "c1")]
        = "cluster/c1/peer/{cluster-fsid}" ∧
      hasBraceGroup (bindPattern "cluster/{cluster-fsid}/peer/{cluster-fsid}"
        [("cluster-fsid", "c1")]).data = true) ∧
    (covers [("pool-id", "7")] "pool/{{pool-id}}" ∧
      bindPattern "pool/{{pool-id}}" [("pool-id", "7")] = "pool/{7}" ∧
      hasBraceGroup (bindPattern "pool/{{pool-id}}" [("pool-id", "7")]).data = true) := by
  refine ⟨⟨?_, ?_, ?_, ?_⟩, ⟨?_, ?_, ?_⟩, ⟨?_, ?_, ?_⟩⟩
  · unfold covers; decide
  · decide
  · decide
  · decide
  · unfold covers; decide
  · decide
  · decide
  · unfold covers; decide
  · decide
  · decide

end cephapi
